import Mathlib

/-!
# VolumeBot: trade-session state machine and batched execution scheduler

A shallow embedding of `src/index.js`.  JavaScript numbers that hold amounts are
embedded as rationals, counters as naturals, `undefined` as `none`.  A text is
turned into a number as `parseFloat` does it, by rounding its decimal literal to
the nearest double, and is compared with the doubles that the literals `0.1` and
`0.0001` denote.  External
collaborators (balance query, swap broadcast, market-data lookup, key generation)
are parameters of the model, indexed by the number of calls already made, so that
every behaviour of a collaborator, deterministic or not, is covered.
-/

namespace VolumeBot

/-! ## Data model -/

/-- The three entries of `NETWORKS` (index.js line 28). -/
inductive Network where
  | Solana
  | BSC
  | Ethereum
  deriving DecidableEq, Repr

/-- The string by which the source names a network. -/
def Network.name : Network → String
  | .Solana => "Solana"
  | .BSC => "BSC"
  | .Ethereum => "Ethereum"

/-- One entry of a wallet list: `{ public, private }` in the source. -/
structure Wallet where
  publicKey : String
  privateKey : String
  deriving DecidableEq, Repr

/-- One entry of the `SPEEDS` table: `{ label, value, rate }`. -/
structure Speed where
  label : String
  value : String
  rate : Nat
  deriving DecidableEq, Repr

/-- The `SPEEDS` table (index.js lines 29-33). -/
def SPEEDS : List Speed :=
  [ { label := "🐢 Slow (4 trx/20s)", value := "slow", rate := 4 },
    { label := "🚗 Moderate (9 trx/20s)", value := "moderate", rate := 9 },
    { label := "🚀 Fast (12 trx/20s)", value := "fast", rate := 12 } ]

/-- What `getWalletBalance` returns for one of the three networks: the sentinel
`'Error'` or an amount in native units. -/
inductive Balance where
  | error
  | value (q : ℚ)
  deriving DecidableEq

/-- What `sendBuyTx` and `sendSellTx` return. -/
inductive SwapResult where
  | success (txid : String)
  | failure (error : String)
  deriving DecidableEq, Repr

/-- The arguments of one call of `sendBuyTx` or `sendSellTx`. -/
structure SwapCall where
  network : Option Network
  priv : String
  tokenAddress : Option String
  amount : ℚ
  slippage : ℚ
  deriving DecidableEq

/-- The steps a session can wait in (the strings assigned to `session.step`). -/
inductive Step where
  | await_wallet_count
  | await_wallet_network
  | await_token_address
  | await_slippage
  | await_buy_amount
  deriving DecidableEq, Repr

/-- A user session.  The per-network objects `activeVolume`, `lastTxs` and
`lastSellTxs` are `none` while the property was never assigned; their keys are
the value of `session.tradeNetwork` at the time of the write, `none` standing
for the key `undefined`. -/
structure Session where
  step : Option Step
  lastStep : Option Step
  wallets : Network → List Wallet
  walletCount : Option Nat
  walletNetwork : Option Network
  tokenAddress : Option String
  tradeNetwork : Option Network
  selectedSpeed : Option Speed
  slippage : Option ℚ
  buyAmount : Option ℚ
  buySellReady : Bool
  activeVolume : Option (Option Network → Option Bool)
  lastTxs : Option (Option Network → Option (List String))
  lastSellTxs : Option (Option Network → Option (List String))

/-- The session `getUserSession` creates on first contact: `{ wallets: {} }`. -/
def Session.fresh : Session :=
  { step := none, lastStep := none, wallets := fun _ => [], walletCount := none,
    walletNetwork := none, tokenAddress := none, tradeNetwork := none,
    selectedSpeed := none, slippage := none, buyAmount := none, buySellReady := false,
    activeVolume := none, lastTxs := none, lastSellTxs := none }

/-- Assignment `obj[key] = v` on a per-network object. -/
def setKey {α : Type} (m : Option Network → Option α) (k : Option Network) (v : α) :
    Option Network → Option α :=
  fun j => if j = k then some v else m j

/-- The expression `obj || {}`. -/
def orEmpty {α : Type} (m : Option (Option Network → Option α)) : Option Network → Option α :=
  match m with
  | some f => f
  | none => fun _ => none

/-- The fields the token handler reads from the first pair of a Dex Screener
answer; an absent or empty field is `none` or the empty string. -/
structure Pair where
  chainId : Option String
  chainName : Option String
  baseToken : Option (String × String)
  priceUsd : Option String
  volumeH24 : Option String

/-- The outcome of the `fetch` of line 735 followed by `resp.json()`: an exception,
or the array `data.pairs` (empty when the property is absent). -/
inductive DexResponse where
  | threw
  | pairs (ps : List Pair)

/-! ## Execution scheduler (index.js lines 809-908) -/

/-- The collaborators a handler calls.  Each is indexed by the number of calls
of that collaborator already made while handling the current update. -/
structure Env where
  getWalletBalance : Nat → Option Network → String → Balance
  sendBuyTx : Nat → SwapCall → SwapResult
  sendSellTx : Nat → SwapCall → SwapResult
  fetchDex : String → DexResponse
  generate : Network → Nat → Wallet
  numText : ℚ → String

/-- The wallet list of a cycle: `(session.wallets && session.wallets[session.tradeNetwork]) || []`. -/
def cycleWallets (s : Session) : List Wallet :=
  match s.tradeNetwork with
  | some net => s.wallets net
  | none => []

/-- Lines 819-821: 1, or 2 at speed `moderate`, or 4 at speed `fast`. -/
def txPerWalletPerRound (s : Session) : Nat :=
  let t1 := 1
  let t2 := match s.selectedSpeed with
    | some sp => if sp.value = "moderate" then 2 else t1
    | none => t1
  match s.selectedSpeed with
  | some sp => if sp.value = "fast" then 4 else t2
  | none => t2

/-- The expression `session.selectedSpeed ? session.selectedSpeed.rate : 4`. -/
def speedRate (s : Session) : Nat :=
  match s.selectedSpeed with
  | some sp => sp.rate
  | none => 4

/-- Line 822: `wallets.length * rate`. -/
def totalTx (s : Session) : Nat := (cycleWallets s).length * speedRate s

/-- Line 823: `Math.ceil(rate / txPerWalletPerRound)`; the divisor is 1, 2 or 4. -/
def rounds (s : Session) : Nat :=
  (speedRate s + txPerWalletPerRound s - 1) / txPerWalletPerRound s

/-- The expression `session.buyAmount || 0.001`. -/
def cycleAmount (s : Session) : ℚ :=
  match s.buyAmount with
  | some a => if a = 0 then 1 / 1000 else a
  | none => 1 / 1000

/-- The expression `session.slippage || 1`. -/
def cycleSlippage (s : Session) : ℚ :=
  match s.slippage with
  | some a => if a = 0 then 1 else a
  | none => 1

/-- The explorer address a successful transaction id is appended to. -/
def explorer (net : Option Network) : String :=
  match net with
  | some .Ethereum => "https://etherscan.io/tx/"
  | some .BSC => "https://bscscan.com/tx/"
  | _ => "https://solscan.io/tx/"

/-- The log entry pushed for the result of a swap (lines 835-840, 882-887). -/
def swapEntry (net : Option Network) : SwapResult → String
  | .success txid => explorer net ++ txid
  | .failure err => "Error: " ++ err

/-- The log entry pushed for a skipped wallet (line 877). -/
def skipEntry (pub : String) : String :=
  "Skipped (low balance): <code>" ++ pub ++ "</code>"

/-- The progress notification of lines 844 and 891. -/
def progressMsg (sent total : Nat) (side : String) : String :=
  "<b>" ++ toString sent ++ "/" ++ toString total ++ "</b> " ++ side ++ " transactions sent..."

/-- The gas-safety test of line 875: `nativeBal === 'Error' || parseFloat(nativeBal) < 0.002`. -/
def lowBalance : Balance → Bool
  | .error => true
  | .value q => decide (q < 2 / 1000)

/-- The local variables and effects of one cycle.  `callPositions` holds, for
each call of `sendBuyTx`, the index `i` of the `wallets[i]` whose key it uses. -/
structure CycleState where
  sent : Nat
  log : List String
  swapCalls : List SwapCall
  callPositions : List Nat
  balanceCalls : List String
  skippedWallets : List String
  progress : List String
  delays : Nat

/-- The state at line 829 or 869: nothing sent, the log of the network reset to `[]`. -/
def CycleState.init : CycleState :=
  { sent := 0, log := [], swapCalls := [], callPositions := [], balanceCalls := [],
    skippedWallets := [], progress := [], delays := 0 }

/-- The swap arguments for wallet `w` in session `s`. -/
def swapCallOf (s : Session) (w : Wallet) : SwapCall :=
  { network := s.tradeNetwork, priv := w.privateKey, tokenAddress := s.tokenAddress,
    amount := cycleAmount s, slippage := cycleSlippage s }

/-- Lines 834-841: one buy with `wallets[i]`, its log entry, `sent++`. -/
def buySubOp (env : Env) (s : Session) (i : Nat) (w : Wallet) (st : CycleState) : CycleState :=
  let call := swapCallOf s w
  let result := env.sendBuyTx st.swapCalls.length call
  { st with
    swapCalls := st.swapCalls ++ [call]
    callPositions := st.callPositions ++ [i]
    log := st.log ++ [swapEntry s.tradeNetwork result]
    sent := st.sent + 1 }

/-- Lines 831-842: the loop over `t` for `wallets[i]`, with `t` iterations left. -/
def buyInner (env : Env) (s : Session) (i : Nat) (w : Wallet) : Nat → CycleState → CycleState
  | 0, st => st
  | t + 1, st =>
    if st.sent ≥ totalTx s then st else buyInner env s i w t (buySubOp env s i w st)

/-- Lines 830-843: the loop over the wallets, `i` being the index of the first
wallet of the list that is left. -/
def buyWallets (env : Env) (s : Session) : Nat → List Wallet → CycleState → CycleState
  | _, [], st => st
  | i, w :: ws, st =>
    buyWallets env s (i + 1) ws (buyInner env s i w (txPerWalletPerRound s) st)

/-- Lines 844-847: the progress notification and the delay that follow a round. -/
def endRound (s : Session) (side : String) (st : CycleState) : CycleState :=
  let st1 := { st with progress := st.progress ++ [progressMsg st.sent (totalTx s) side] }
  if st1.sent < totalTx s then { st1 with delays := st1.delays + 1 } else st1

/-- Lines 829-848: the loop over the rounds, with `r` rounds left. -/
def buyRounds (env : Env) (s : Session) : Nat → CycleState → CycleState
  | 0, st => st
  | r + 1, st => buyRounds env s r (endRound s "buy" (buyWallets env s 0 (cycleWallets s) st))

/-- The whole buy loop, from the state of line 829. -/
def buyCycle (env : Env) (s : Session) : CycleState :=
  buyRounds env s (rounds s) CycleState.init

/-- Lines 874-888: the balance check, then either the skip (`continue`, which
leaves `sent` as it is) or one sell, its log entry and `sent++`. -/
def sellSubOp (env : Env) (s : Session) (w : Wallet) (st : CycleState) : CycleState :=
  let nativeBal := env.getWalletBalance st.balanceCalls.length s.tradeNetwork w.publicKey
  let st1 := { st with balanceCalls := st.balanceCalls ++ [w.publicKey] }
  if lowBalance nativeBal then
    { st1 with
      skippedWallets := st1.skippedWallets ++ [w.publicKey]
      log := st1.log ++ [skipEntry w.publicKey] }
  else
    let call := swapCallOf s w
    let result := env.sendSellTx st1.swapCalls.length call
    { st1 with
      swapCalls := st1.swapCalls ++ [call]
      log := st1.log ++ [swapEntry s.tradeNetwork result]
      sent := st1.sent + 1 }

/-- Lines 871-889: the loop over `t`, with `t` iterations left. -/
def sellInner (env : Env) (s : Session) (w : Wallet) : Nat → CycleState → CycleState
  | 0, st => st
  | t + 1, st => if st.sent ≥ totalTx s then st else sellInner env s w t (sellSubOp env s w st)

/-- Lines 870-890: the loop over the wallets. -/
def sellWallets (env : Env) (s : Session) : List Wallet → CycleState → CycleState
  | [], st => st
  | w :: ws, st => sellWallets env s ws (sellInner env s w (txPerWalletPerRound s) st)

/-- Lines 869-895: the loop over the rounds, with `r` rounds left. -/
def sellRounds (env : Env) (s : Session) : Nat → CycleState → CycleState
  | 0, st => st
  | r + 1, st => sellRounds env s r (endRound s "sell" (sellWallets env s (cycleWallets s) st))

/-- The whole sell loop, from the state of line 869. -/
def sellCycle (env : Env) (s : Session) : CycleState :=
  sellRounds env s (rounds s) CycleState.init

/-! ## Network classifier (index.js lines 81-89) -/

/-- The character class `[1-9A-HJ-NP-Za-km-z]`. -/
def isBase58 (c : Char) : Bool :=
  ('1' ≤ c && c ≤ '9') || ('A' ≤ c && c ≤ 'H') || ('J' ≤ c && c ≤ 'N') ||
  ('P' ≤ c && c ≤ 'Z') || ('a' ≤ c && c ≤ 'k') || ('m' ≤ c && c ≤ 'z')

/-- The character class `[a-fA-F0-9]`. -/
def isHex (c : Char) : Bool :=
  ('a' ≤ c && c ≤ 'f') || ('A' ≤ c && c ≤ 'F') || ('0' ≤ c && c ≤ '9')

/-- The test `/^[1-9A-HJ-NP-Za-km-z]{32,44}$/`. -/
def matchesSolana (address : String) : Bool :=
  address.data.all isBase58 && decide (32 ≤ address.data.length) &&
    decide (address.data.length ≤ 44)

/-- The test `/^0x[a-fA-F0-9]{40}$/`. -/
def matchesEvm (address : String) : Bool :=
  match address.data with
  | '0' :: 'x' :: rest => rest.all isHex && decide (rest.length = 40)
  | _ => false

/-- The function `getNetworkFromAddress(address, session)`; the second argument is
`none` when no session is passed, the result `none` is `null`. -/
def getNetworkFromAddress (address : String) (session : Option Session) : Option Network :=
  if matchesSolana address then some .Solana
  else if (match session with
      | some s => decide (s.tradeNetwork = some .BSC)
      | none => false) && matchesEvm address then some .BSC
  else if matchesEvm address then some .Ethereum
  else none

/-! ## Number parsing (`parseFloat`, `parseInt`) -/

/-- A parsed JavaScript number: `NaN`, an infinity, or a finite value, held as the
rational that the double is equal to. -/
inductive JsNum where
  | nan
  | inf (negative : Bool)
  | fin (q : ℚ)
  deriving DecidableEq

/-- The white space and line terminators that `parseFloat` and `parseInt` strip. -/
def isJsSpace (c : Char) : Bool :=
  c.toNat = 9 || c.toNat = 10 || c.toNat = 11 || c.toNat = 12 || c.toNat = 13 ||
  c.toNat = 32 || c.toNat = 160 || c.toNat = 5760 ||
  (8192 ≤ c.toNat && c.toNat ≤ 8202) || c.toNat = 8232 || c.toNat = 8233 ||
  c.toNat = 8239 || c.toNat = 8287 || c.toNat = 12288 || c.toNat = 65279

/-- The value of a hexadecimal or decimal digit. -/
def digitValue (c : Char) : Nat :=
  if '0' ≤ c ∧ c ≤ '9' then c.toNat - 48
  else if 'a' ≤ c ∧ c ≤ 'f' then c.toNat - 87
  else if 'A' ≤ c ∧ c ≤ 'F' then c.toNat - 55
  else 0

/-- The value of a digit string in the given radix. -/
def digitsValue (radix : Nat) (ds : List Char) : Nat :=
  ds.foldl (fun acc c => acc * radix + digitValue c) 0

/-- The test for a decimal digit. -/
def isDecDigit (c : Char) : Bool := '0' ≤ c && c ≤ '9'

/-- An optional sign: whether it is a minus, and what follows it. -/
def takeSign : List Char → Bool × List Char
  | '-' :: r => (true, r)
  | '+' :: r => (false, r)
  | cs => (false, cs)

/-- The exponent part at the head of the input, or 0 when there is none. -/
def exponentOf : List Char → Int
  | c :: r =>
    if c = 'e' ∨ c = 'E' then
      let sr := takeSign r
      let ds := sr.2.span isDecDigit
      if ds.1 = [] then 0
      else if sr.1 then - (digitsValue 10 ds.1 : Int) else (digitsValue 10 ds.1 : Int)
    else 0
  | [] => 0

/-- The number of halvings that bring `n` below 2, at most `fuel` of them. -/
def log2Steps : Nat → Nat → Nat
  | 0, _ => 0
  | fuel + 1, n => if n < 2 then 0 else log2Steps fuel (n / 2) + 1

/-- The integer part of the binary logarithm of `n`, for `n ≥ 1`. -/
def floorLog2 (n : Nat) : Nat := log2Steps n n

/-- The integer nearest to `n / d`, a tie going to the even one. -/
def roundHalfEven (n d : Nat) : Nat :=
  let q := n / d
  let r := n % d
  if 2 * r < d then q
  else if d < 2 * r then q + 1
  else if q % 2 = 0 then q
  else q + 1

/-- The exponent `e` of the binade of `num / den` (`num, den ≥ 1`), that is
`2 ^ e ≤ num / den < 2 ^ (e + 1)`: the difference of the two logarithms, less
one when `num / den` does not reach that power of two. -/
def binade (num den : Nat) : Int :=
  let e0 : Int := (floorLog2 num : Int) - (floorLog2 den : Int)
  let reaches : Bool :=
    if 0 ≤ e0 then decide (den * 2 ^ e0.toNat ≤ num) else decide (den ≤ num * 2 ^ (-e0).toNat)
  if reaches then e0 else e0 - 1

/-- The binary exponent of the double nearest to `num / den`: the binade less
the 52 fraction bits, not below -1074 (the subnormal range). -/
def doubleExponent (num den : Nat) : Int := max (binade num den - 52) (-1074)

/-- The significand for exponent `k`: `num / den / 2 ^ k` rounded to the nearest
integer, ties to even. -/
def doubleSignificand (num den : Nat) (k : Int) : Nat :=
  if 0 ≤ k then roundHalfEven num (den * 2 ^ k.toNat)
  else roundHalfEven (num * 2 ^ (-k).toNat) den

/-- The double nearest to `num / den` (`den > 0`), as significand `M` and binary
exponent `k` with value `M * 2 ^ k`.  The result `none` is the overflow to
`Infinity`, a rounded value of `2 ^ 1024` or more. -/
def toDoubleParts (num den : Nat) : Option (Nat × Int) :=
  if num = 0 then some (0, 0)
  else
    let k := doubleExponent num den
    let M := doubleSignificand num den k
    if 971 < k ∨ (k = 971 ∧ 2 ^ 53 ≤ M) then none else some (M, k)

/-- The rational `M * 2 ^ k`. -/
def pow2Scale (M : Nat) (k : Int) : ℚ :=
  if 0 ≤ k then (M : ℚ) * (2 : ℚ) ^ k.toNat else (M : ℚ) / (2 : ℚ) ^ (-k).toNat

/-- The Number value of the non-negative rational `num / den`: its nearest
double, or `Infinity`. -/
def toDouble (num den : Nat) : JsNum :=
  match toDoubleParts num den with
  | none => .inf false
  | some (M, k) => .fin (pow2Scale M k)

/-- The Number value of the decimal literal with digits `m` and decimal
exponent `e`, that is of `m * 10 ^ e`. -/
def decimalToDouble (m : Nat) (e : Int) : JsNum :=
  if 0 ≤ e then toDouble (m * 10 ^ e.toNat) 1 else toDouble m (10 ^ (-e).toNat)

/-- The sign of the literal applied to the Number value of its digits. -/
def withSign (negative : Bool) : JsNum → JsNum
  | .fin v => .fin (if negative then - v else v)
  | .inf _ => .inf negative
  | .nan => .nan

/-- The function `parseFloat` on a string: the longest leading decimal literal
after white space, rounded to the nearest double as the engine does (round to
nearest, ties to even, `Infinity` on overflow). -/
def parseFloat (text : String) : JsNum :=
  let sr := takeSign (text.data.dropWhile isJsSpace)
  let cs := sr.2
  match cs with
  | 'I' :: 'n' :: 'f' :: 'i' :: 'n' :: 'i' :: 't' :: 'y' :: _ => .inf sr.1
  | _ =>
    let ip := cs.span isDecDigit
    let fp := match ip.2 with
      | '.' :: r => r.span isDecDigit
      | r => ([], r)
    if ip.1 = [] ∧ fp.1 = [] then .nan
    else
      withSign sr.1
        (decimalToDouble (digitsValue 10 (ip.1 ++ fp.1)) (exponentOf fp.2 - (fp.1.length : Int)))

/-- The function `parseInt` on a string without radix argument: `none` is `NaN`. -/
def parseInt (text : String) : Option Int :=
  let sr := takeSign (text.data.dropWhile isJsSpace)
  let body : Nat × List Char := match sr.2 with
    | '0' :: 'x' :: r => (16, r)
    | '0' :: 'X' :: r => (16, r)
    | r => (10, r)
  let ds := body.2.span (fun c => if body.1 = 16 then isHex c else isDecDigit c)
  if ds.1 = [] then none
  else if sr.1 then some (- (digitsValue body.1 ds.1 : Int))
  else some (digitsValue body.1 ds.1 : Int)

/-- The number the literal `0.1` of line 642 denotes: the double nearest to 1/10. -/
def jsTenth : ℚ := 3602879701896397 / 36028797018963968

/-- The number the literal `0.0001` of line 665 denotes: the double nearest to 1/10000. -/
def jsTenThousandth : ℚ := 7378697629483821 / 73786976294838206464

/-- The test `isNaN(x) || x < lo || x > hi` of lines 642 and 665; the result is
the accepted value. -/
def inRange (x : JsNum) (lo hi : ℚ) : Option ℚ :=
  match x with
  | .nan => none
  | .inf _ => none
  | .fin q => if q < lo ∨ q > hi then none else some q

/-! ## Handlers (index.js lines 448-908) -/

/-- What handling one update leaves behind: the session, the messages passed to
`safeReplyWithHTML` in call order, the texts passed to `ctx.answerCbQuery`
(`""` for a call without argument), the swap calls made, and whether the handler
ended by an uncaught exception. -/
structure Outcome where
  session : Session
  replies : List String
  answers : List String
  swapCalls : List SwapCall
  threw : Bool

/-- The text a balance is rendered to inside a message. -/
def balanceText (env : Env) : Balance → String
  | .error => "Error"
  | .value q => env.numText q

/-- The native currency named in the prompts of lines 653 and 676. -/
def currencyName (net : Option Network) : String :=
  match net with
  | some .Ethereum => "ETH"
  | some .BSC => "BNB"
  | _ => "SOL"

/-- The wallet lines of one network in the wallet view (lines 458-461); the
second component is the number of balance calls made so far. -/
def showWalletLines (env : Env) (net : Network) : List Wallet → String × Nat → String × Nat
  | [], acc => acc
  | w :: ws, acc =>
    let bal := env.getWalletBalance acc.2 (some net) w.publicKey
    showWalletLines env net ws
      (acc.1 ++ "<code>" ++ w.publicKey ++ "</code>\nBalance: <b>" ++ balanceText env bal ++
        "</b>\n", acc.2 + 1)

/-- The loop over `NETWORKS` of lines 453-463: message, `hasWallets`, balance calls. -/
def showWalletsLoop (env : Env) (s : Session) :
    List Network → String × Bool × Nat → String × Bool × Nat
  | [], acc => acc
  | net :: nets, acc =>
    if (s.wallets net).length ≠ 0 then
      let r := showWalletLines env net (s.wallets net)
        (acc.1 ++ "\n<b>" ++ net.name ++ ":</b>\n", acc.2.2)
      showWalletsLoop env s nets (r.1, true, r.2)
    else showWalletsLoop env s nets acc

/-- The handler of `'👛 Show Wallets'` (lines 449-468). -/
def showWallets (env : Env) (s : Session) : Outcome :=
  let r := showWalletsLoop env s [.Solana, .BSC, .Ethereum]
    ("<b>Your wallets by network:</b>\n", false, 0)
  { session := s
    replies := if r.2.1 then [r.1] else ["No wallets generated yet."]
    answers := [], swapCalls := [], threw := false }

/-- The handler of the action `show_wallets_inline` (lines 470-491). -/
def showWalletsInline (env : Env) (s : Session) : Outcome :=
  { showWallets env s with answers := [""] }

/-- The handler of `/start` (lines 494-502). -/
def start (s : Session) : Outcome :=
  { session := { s with step := none, lastStep := none }
    replies := ["👋 <b>Welcome to Volume Bot!</b>\nAutomate volume on <b>Solana</b>, <b>BSC</b>, and <b>Ethereum</b> tokens.\n\nStep 1: Generate wallets to begin."]
    answers := [], swapCalls := [], threw := false }

/-- The handler of `'Back to Main'` (lines 515-521). -/
def backToMain (s : Session) : Outcome :=
  { session := { s with lastStep := s.step, step := none }
    replies := ["Back to main menu."]
    answers := [], swapCalls := [], threw := false }

/-- The handler of the action `back_to_main_inline` (lines 523-530). -/
def backToMainInline (s : Session) : Outcome :=
  { backToMain s with answers := [""] }

/-- The handler of `'🪪 Generate Wallet'` (lines 533-541). -/
def generateWallet (s : Session) : Outcome :=
  { session := { s with lastStep := s.step, step := some .await_wallet_count }
    replies := ["How many wallets do you want to generate? (Recommended: 5, Max: 20)"]
    answers := [], swapCalls := [], threw := false }

/-- The handler of `'🔗 Enter Token Mint Address'` and of `/entertoken` (lines 544-562). -/
def enterToken (s : Session) : Outcome :=
  { session := { s with lastStep := s.step, step := some .await_token_address }
    replies := ["Please enter the token mint address below and then press enter."]
    answers := [], swapCalls := [], threw := false }

/-- Truth of a string-valued property: set and not empty. -/
def truthy : Option String → Bool
  | some t => t ≠ ""
  | none => false

/-- The test of line 591: `bal !== 'Error' && parseFloat(bal) >= 0.01`. -/
def funded : Balance → Bool
  | .error => false
  | .value q => decide (q ≥ 1 / 100)

/-- The test of lines 582 and 592: `bal === 'Error' || parseFloat(bal) < 0.01`. -/
def unfunded : Balance → Bool
  | .error => true
  | .value q => decide (q < 1 / 100)

/-- The sweep of lines 587-593: `(allOk, anyFunded)` after the wallets, the
balance calls being numbered from `k`. -/
def sweep (env : Env) (net : Network) : List Wallet → Nat → Bool × Bool → Bool × Bool
  | [], _, acc => acc
  | w :: ws, k, acc =>
    let bal := env.getWalletBalance k (some net) w.publicKey
    sweep env net ws (k + 1)
      (if unfunded bal then false else acc.1, if funded bal then true else acc.2)

/-- A handler that only replies. -/
def replyOnly (s : Session) (msg : String) : Outcome :=
  { session := s, replies := [msg], answers := [], swapCalls := [], threw := false }

/-- The handler of `'🚀 Start Volume Bot'` (lines 565-616).  `getSpeedMenu` is not
defined anywhere in the source, so evaluating the arguments of the call of
line 606 throws before any reply is sent. -/
def startVolume (env : Env) (s : Session) : Outcome :=
  match s.tradeNetwork with
  | none => replyOnly s "Please enter a token mint address first."
  | some net =>
    if !truthy s.tokenAddress then replyOnly s "Please enter a token mint address first."
    else
      match s.wallets net with
      | [] => replyOnly s "No wallets generated for this network. Please generate wallets first."
      | w0 :: ws =>
        let firstWalletBal := env.getWalletBalance 0 (some net) w0.publicKey
        if unfunded firstWalletBal then
          replyOnly s "❌ <b>Insufficient funds in your wallet. Please fund your wallet before starting.</b>"
        else
          let r := sweep env net (w0 :: ws) 1 (true, false)
          if !r.2 then
            replyOnly { s with activeVolume := some (setKey (orEmpty s.activeVolume) (some net) false) }
              "❌ <b>All wallets have zero or insufficient balance. Please fund your wallets before starting volume bot.</b>"
          else if !r.1 then
            replyOnly s "❌ <b>Some wallets are not funded. Please fund your wallets before starting volume bot.</b>"
          else
            match s.selectedSpeed with
            | none => { session := s, replies := [], answers := [], swapCalls := [], threw := true }
            | some _ =>
              replyOnly { s with step := some .await_slippage }
                "Enter slippage % (e.g. 0.5 for 0.5%, max 50, min 0.1, default 1):"

/-- The test `NETWORKS.includes(text)`, with the network found. -/
def networkOfText (text : String) : Option Network :=
  if text = "Solana" then some .Solana
  else if text = "BSC" then some .BSC
  else if text = "Ethereum" then some .Ethereum
  else none

/-- The loops of lines 705-714: `count` wallets from the key generator. -/
def generateWallets (env : Env) (net : Network) (count : Nat) : List Wallet :=
  (List.range count).map (env.generate net)

/-- The function `formatWalletList` (lines 91-93). -/
def formatWalletList (wallets : List Wallet) : String :=
  "\n\n".intercalate (wallets.enum.map (fun p =>
    "Wallet #" ++ toString (p.1 + 1) ++ "\nPublic: <code>" ++ p.2.publicKey ++
      "</code>\nPrivate: <code>" ++ p.2.privateKey ++ "</code>"))

/-- Whether the character list `hay` begins with `needle`. -/
def beginsWith : List Char → List Char → Bool
  | [], _ => true
  | _ :: _, [] => false
  | a :: as, b :: bs => a == b && beginsWith as bs

/-- The test `haystack.includes(needle)` on character lists. -/
def includes (needle : List Char) : List Char → Bool
  | [] => needle.isEmpty
  | c :: cs => beginsWith needle (c :: cs) || includes needle cs

/-- The network named by a chain label (lines 741-743 and 746-748); lowering
the ASCII letters is all `toLowerCase` does to the letters of `bsc`, `eth`, `sol`. -/
def chainNetwork (chain : String) : Option Network :=
  let lower := chain.data.map Char.toLower
  if includes "bsc".data lower then some .BSC
  else if includes "eth".data lower then some .Ethereum
  else if includes "sol".data lower then some .Solana
  else none

/-- Lines 740-750: the network and the chain label taken from the first pair. -/
def detectNetwork (pair : Pair) : Option Network × String :=
  if truthy pair.chainId then (chainNetwork (pair.chainId.getD ""), pair.chainId.getD "")
  else if truthy pair.chainName then
    (chainNetwork (pair.chainName.getD ""), pair.chainName.getD "")
  else (none, "")

/-- The wallet lines of the token message (lines 787-791). -/
def tokenWalletLines (env : Env) (net : Network) : List Wallet → Nat → String → String
  | [], _, msg => msg
  | w :: ws, i, msg =>
    let bal := env.getWalletBalance i (some net) w.publicKey
    tokenWalletLines env net ws (i + 1)
      (msg ++ "#" ++ toString (i + 1) ++ " <code>" ++ w.publicKey ++ "</code>\n" ++
        "   <b>Balance:</b> <code>" ++ balanceText env bal ++ "</code>\n")

/-- The message of lines 773-795. -/
def tokenMessage (env : Env) (s : Session) (text : String) (net : Network) (chainName : String)
    (pair : Pair) : String :=
  let tokenName := match pair.baseToken with
    | some b => b.1
    | none => ""
  let tokenSymbol := match pair.baseToken with
    | some b => b.2
    | none => ""
  let m1 := "<b>🎯 Token address set:</b> <code>" ++ text ++ "</code>\n" ++
    "<b>🌐 Detected network:</b> <b>" ++ net.name ++ "</b> <i>(" ++ chainName ++ ")</i>\n"
  let m2 := if tokenName ≠ "" ∨ tokenSymbol ≠ "" then
      m1 ++ "🔹 <b>Token:</b> <b>" ++ tokenName ++
        (if tokenSymbol ≠ "" then " (" ++ tokenSymbol ++ ")" else "") ++ "</b>\n"
    else m1
  let m3 := if truthy pair.priceUsd && truthy pair.volumeH24 then
      m2 ++ "💲 <b>Price:</b> <b>$" ++ pair.priceUsd.getD "" ++
        "</b>\n📊 <b>24h Volume:</b> <b>" ++ pair.volumeH24.getD "" ++ "</b>\n"
    else m2 ++ "<b>Price and volume not found on Dex Screener.</b>\n"
  let m4 := if (s.wallets net).length ≠ 0 then
      tokenWalletLines env net (s.wallets net) 0
        (m3 ++ "\n<b>👛 Your " ++ net.name ++ " wallets:</b>\n")
    else m3 ++ "\n<b>⚠️ No wallets found for " ++ net.name ++
      ". Please generate wallets first.</b>\n"
  m4 ++ "\n<b>➡️ Next:</b> Click <b>Start Volume Bot</b> to begin."

/-- The branch `await_slippage` of the text handler (lines 636-658). -/
def onSlippage (env : Env) (s : Session) (text : String) : Outcome :=
  let accepted : Option ℚ :=
    if text = "Use Default (1%)" then some 1 else inRange (parseFloat text) jsTenth 50
  match accepted with
  | none => replyOnly s "Please enter a valid slippage between 0.1 and 50."
  | some slippage =>
    replyOnly { s with slippage := some slippage, step := some .await_buy_amount }
      ("Slippage set to <b>" ++ env.numText slippage ++ "%</b>.\nHow much " ++
        currencyName s.tradeNetwork ++
        " do you want to use for each buy transaction? (Default: 0.001)")

/-- The branch `await_buy_amount` of the text handler (lines 659-678). -/
def onBuyAmount (env : Env) (s : Session) (text : String) : Outcome :=
  let accepted : Option ℚ :=
    if text = "Use Default (0.001)" then some (1 / 1000)
    else inRange (parseFloat text) jsTenThousandth 10
  match accepted with
  | none => replyOnly s "Please enter a valid amount between 0.0001 and 10.0."
  | some amount =>
    replyOnly { s with buyAmount := some amount, step := none }
      ("Amount per buy transaction set to <b>" ++ env.numText amount ++ "</b> " ++
        currencyName s.tradeNetwork ++ ".\nYou can now Buy or Dump tokens.")

/-- The branch `await_wallet_count` of the text handler (lines 679-695). -/
def onWalletCount (s : Session) (text : String) : Outcome :=
  match parseInt text with
  | none => replyOnly s "Please enter a valid number between 1 and 20."
  | some count =>
    if count < 1 ∨ count > 20 then replyOnly s "Please enter a valid number between 1 and 20."
    else
      replyOnly { s with walletCount := some count.toNat, lastStep := s.step,
                         step := some .await_wallet_network }
        "Select the network for wallet generation:"

/-- The branch `await_wallet_network` of the text handler (lines 696-728); an
unset `walletCount` makes the loop condition `i < undefined` false at once. -/
def onWalletNetwork (env : Env) (s : Session) (text : String) : Outcome :=
  match networkOfText text with
  | none => replyOnly s "Please select a valid network."
  | some net =>
    let wallets := generateWallets env net (s.walletCount.getD 0)
    let countText := match s.walletCount with
      | some c => toString c
      | none => "undefined"
    { session := { s with walletNetwork := some net
                          wallets := fun k => if k = net then wallets else s.wallets k
                          lastStep := s.step, step := none }
      replies := ["<b>" ++ countText ++ " wallets generated on " ++ net.name ++ ":</b>\n\n" ++
          formatWalletList wallets,
        "Please fund your wallets and enter the token mint address to start the volume bot."]
      answers := [], swapCalls := [], threw := false }

/-- The branch `await_token_address` of the text handler (lines 729-801). -/
def onTokenAddress (env : Env) (s : Session) (text : String) : Outcome :=
  match env.fetchDex text with
  | .threw =>
    replyOnly s "An error occurred while checking the token address. Please try again later or check your address."
  | .pairs ps =>
    let found : Option (Network × String × Pair) := match ps with
      | [] => none
      | pair :: _ => match detectNetwork pair with
        | (some net, chainName) => some (net, chainName, pair)
        | (none, _) => none
    match found with
    | none =>
      replyOnly s "Could not detect network from Dex Screener. Please check the address and try again."
    | some (net, chainName, pair) =>
      replyOnly { s with tokenAddress := some text, tradeNetwork := some net
                         lastStep := s.step, step := none }
        (tokenMessage env s text net chainName pair)

/-- The handler `bot.on('text')` (lines 619-807). -/
def onText (env : Env) (s : Session) (text : String) : Outcome :=
  if text = "Back to Main" then backToMain s
  else if text = "Go Back" ∧ s.lastStep.isSome then
    replyOnly { s with step := s.lastStep } "Returning to previous step..."
  else
    match s.step with
    | some .await_slippage => onSlippage env s text
    | some .await_buy_amount => onBuyAmount env s text
    | some .await_wallet_count => onWalletCount s text
    | some .await_wallet_network => onWalletNetwork env s text
    | some .await_token_address => onTokenAddress env s text
    | none =>
      replyOnly { s with lastStep := s.step, step := none }
        "Sorry, I did not understand that. Please use the menu below."

/-- The branch `buy_tokens` of the callback handler (lines 812-850). -/
def buyTokens (env : Env) (s : Session) : Outcome :=
  if !s.buySellReady then
    { session := s, replies := [], answers := ["Please start the volume bot first."],
      swapCalls := [], threw := false }
  else
    let st := buyCycle env s
    { session := { s with lastTxs := some (setKey (orEmpty s.lastTxs) s.tradeNetwork st.log) }
      replies := st.progress ++
        ["✅ <b>Buy operation complete!</b> You can now Dump tokens or check TRX."]
      answers := ["Buy complete!"], swapCalls := st.swapCalls, threw := false }

/-- The summary of lines 896-900. -/
def dumpSummary (skippedWallets : List String) : String :=
  let summary := "✅ <b>Dump successful. Bot stopped.</b> See TRX Sell for details."
  if skippedWallets.length ≠ 0 then
    skippedWallets.foldl (fun acc w => acc ++ "<code>" ++ w ++ "</code>\n")
      (summary ++ "\n\n<b>Skipped wallets (low balance):</b>\n")
  else summary

/-- The branch `dump_tokens` of the callback handler (lines 851-904).  The
assignment of line 902 throws when `session.activeVolume` was never assigned,
and then line 903 and the answer of line 904 are not reached. -/
def dumpTokens (env : Env) (s : Session) : Outcome :=
  if !s.buySellReady then
    { session := s, replies := [], answers := ["Please start the volume bot first."],
      swapCalls := [], threw := false }
  else
    let st := sellCycle env s
    let s1 := { s with lastSellTxs := some (setKey (orEmpty s.lastSellTxs) s.tradeNetwork st.log) }
    let replies := st.progress ++ [dumpSummary st.skippedWallets]
    match s1.activeVolume with
    | none =>
      { session := s1, replies := replies, answers := [], swapCalls := st.swapCalls, threw := true }
    | some av =>
      { session := { s1 with activeVolume := some (setKey av s.tradeNetwork false)
                             buySellReady := false }
        replies := replies, answers := ["Dump complete!"], swapCalls := st.swapCalls
        threw := false }

/-- The handler `bot.on('callback_query')` (lines 809-908). -/
def onCallbackQuery (env : Env) (s : Session) (data : String) : Outcome :=
  if data = "buy_tokens" then buyTokens env s
  else if data = "dump_tokens" then dumpTokens env s
  else { session := s, replies := [], answers := [], swapCalls := [], threw := false }

/-- An update delivered to the bot: the commands `/start` and `/entertoken`, a
text message that is not a command, or the data of a pressed inline button. -/
inductive Update where
  | startCommand
  | entertokenCommand
  | text (t : String)
  | callback (data : String)

/-- The middleware chain in registration order: the first handler whose trigger
matches handles the update and no later one runs. -/
def handle (env : Env) (s : Session) : Update → Outcome
  | .startCommand => start s
  | .entertokenCommand => enterToken s
  | .text t =>
    if t = "👛 Show Wallets" then showWallets env s
    else if t = "Back to Main" then backToMain s
    else if t = "🪪 Generate Wallet" then generateWallet s
    else if t = "🔗 Enter Token Mint Address" then enterToken s
    else if t = "🚀 Start Volume Bot" then startVolume env s
    else onText env s t
  | .callback data =>
    if data = "show_wallets_inline" then showWalletsInline env s
    else if data = "back_to_main_inline" then backToMainInline s
    else onCallbackQuery env s data

/-- The sessions a user can reach from the first contact, each update being
handled with collaborators that may answer anything. -/
inductive Reachable : Session → Prop where
  | fresh : Reachable Session.fresh
  | step {s : Session} (env : Env) (u : Update) : Reachable s → Reachable (handle env s u).session

/-! ## Concrete inputs used to exercise the theorems -/

/-- Three wallets. -/
def sampleWallets : List Wallet :=
  [ { publicKey := "PubA", privateKey := "PrivA" },
    { publicKey := "PubB", privateKey := "PrivB" },
    { publicKey := "PubC", privateKey := "PrivC" } ]

/-- Two wallets that hold the same key pair. -/
def twinWallets : List Wallet :=
  [ { publicKey := "PubA", privateKey := "PrivA" },
    { publicKey := "PubA", privateKey := "PrivA" } ]

/-- Collaborators of which every second balance query fails and every third swap fails. -/
def sampleEnv : Env :=
  { getWalletBalance := fun i _ _ => if i % 2 = 0 then .error else .value 1
    sendBuyTx := fun i _ => if i % 3 = 0 then .failure "reverted" else .success "abc"
    sendSellTx := fun i _ => if i % 3 = 0 then .failure "reverted" else .success "def"
    fetchDex := fun _ => .threw
    generate := fun _ _ => { publicKey := "PubG", privateKey := "PrivG" }
    numText := fun _ => "n" }

/-- Collaborators of which every balance query fails. -/
def failingEnv : Env :=
  { sampleEnv with getWalletBalance := fun _ _ _ => .error }

/-- Collaborators that report a balance of 1 for every wallet. -/
def fundedEnv : Env :=
  { sampleEnv with getWalletBalance := fun _ _ _ => .value 1 }

/-- A configured session on Solana with the given wallets and speed, ready flag
set, `activeVolume` never assigned. -/
def sampleSession (ws : List Wallet) (sp : Option Speed) : Session :=
  { Session.fresh with
    wallets := fun k => if k = .Solana then ws else []
    tokenAddress := some "So11111111111111111111111111111111111111112"
    tradeNetwork := some .Solana
    selectedSpeed := sp
    slippage := some 1
    buyAmount := some (1 / 1000)
    buySellReady := true }

/-- The `slow` entry of `SPEEDS`. -/
def slowSpeed : Speed := { label := "🐢 Slow (4 trx/20s)", value := "slow", rate := 4 }

/-- The `moderate` entry of `SPEEDS`. -/
def moderateSpeed : Speed := { label := "🚗 Moderate (9 trx/20s)", value := "moderate", rate := 9 }

/-- The `fast` entry of `SPEEDS`. -/
def fastSpeed : Speed := { label := "🚀 Fast (12 trx/20s)", value := "fast", rate := 12 }

/-- A configured session on network `net` with one wallet on it and speed `slow`,
ready flag set. -/
def sessionOn (net : Network) : Session :=
  { sampleSession [] (some slowSpeed) with
    wallets := fun k => if k = net then [{ publicKey := "PubA", privateKey := "PrivA" }] else []
    tradeNetwork := some net }

/-- A configured session that waits for the buy amount, the ready flag not yet set. -/
def awaitingAmountSession : Session :=
  { sampleSession sampleWallets (some moderateSpeed) with
    step := some .await_buy_amount
    buySellReady := false }

/-- The texts taken by a `hears` handler registered before `bot.on('text')`. -/
def hearsTriggers : List String :=
  ["👛 Show Wallets", "Back to Main", "🪪 Generate Wallet", "🔗 Enter Token Mint Address",
   "🚀 Start Volume Bot"]

/-- The reading of "the text is an integer": a non-empty string of decimal digits. -/
def isIntegerText (text : String) : Bool :=
  !text.data.isEmpty && text.data.all Char.isDigit

/-- Collaborators whose market-data lookup answers with one pair on chain `solana`. -/
def resolvingEnv : Env :=
  { sampleEnv with
    fetchDex := fun _ =>
      .pairs [{ chainId := some "solana", chainName := none, baseToken := none,
                priceUsd := none, volumeH24 := none }] }

/-- Collaborators whose market-data lookup answers with one pair on chain `ethereum`. -/
def ethereumEnv : Env :=
  { sampleEnv with
    fetchDex := fun _ =>
      .pairs [{ chainId := some "ethereum", chainName := none, baseToken := none,
                priceUsd := none, volumeH24 := none }] }

/-! ## Scheduler: arithmetic of the plan -/

theorem txPerWalletPerRound_pos (s : Session) : 1 ≤ txPerWalletPerRound s := by
  unfold txPerWalletPerRound
  cases s.selectedSpeed with
  | none => simp
  | some sp =>
    simp only
    split_ifs <;> omega

theorem rounds_mul_ge (s : Session) : speedRate s ≤ rounds s * txPerWalletPerRound s := by
  have h := txPerWalletPerRound_pos s
  unfold rounds
  have h2 := Nat.div_add_mod (speedRate s + txPerWalletPerRound s - 1) (txPerWalletPerRound s)
  have h3 := Nat.mod_lt (speedRate s + txPerWalletPerRound s - 1) (show txPerWalletPerRound s > 0 by omega)
  rw [Nat.mul_comm] at h2
  omega

/-! ## Scheduler: the buy loop -/

theorem buyInner_sent (env : Env) (s : Session) (i : Nat) (w : Wallet) :
    ∀ (t : Nat) (st : CycleState), st.sent ≤ totalTx s →
      (buyInner env s i w t st).sent = min (st.sent + t) (totalTx s) := by
  intro t
  induction t with
  | zero => intro st h; simp [buyInner, h]
  | succ t ih =>
    intro st h
    unfold buyInner
    split_ifs with hge
    · omega
    · rw [ih _ (by simp [buySubOp]; omega)]
      simp [buySubOp]
      omega

theorem buyWallets_sent (env : Env) (s : Session) :
    ∀ (ws : List Wallet) (i : Nat) (st : CycleState), st.sent ≤ totalTx s →
      (buyWallets env s i ws st).sent =
        min (st.sent + ws.length * txPerWalletPerRound s) (totalTx s) := by
  intro ws
  induction ws with
  | nil => intro i st h; simp [buyWallets, h]
  | cons w ws ih =>
    intro i st h
    unfold buyWallets
    have h1 := buyInner_sent env s i w (txPerWalletPerRound s) st h
    rw [ih _ _ (by rw [h1]; omega), h1]
    simp only [List.length_cons, Nat.add_mul, Nat.one_mul]
    omega

theorem endRound_sent (s : Session) (side : String) (st : CycleState) :
    (endRound s side st).sent = st.sent := by
  unfold endRound
  simp only
  split_ifs <;> rfl

theorem buyRounds_sent (env : Env) (s : Session) :
    ∀ (r : Nat) (st : CycleState), st.sent ≤ totalTx s →
      (buyRounds env s r st).sent =
        min (st.sent + r * ((cycleWallets s).length * txPerWalletPerRound s)) (totalTx s) := by
  intro r
  induction r with
  | zero => intro st h; simp [buyRounds, h]
  | succ r ih =>
    intro st h
    unfold buyRounds
    have h1 := buyWallets_sent env s (cycleWallets s) 0 st h
    have h2 := endRound_sent s "buy" (buyWallets env s 0 (cycleWallets s) st)
    rw [ih _ (by rw [h2, h1]; omega), h2, h1]
    simp only [Nat.add_mul, Nat.one_mul]
    omega

theorem buyCycle_sent (env : Env) (s : Session) : (buyCycle env s).sent = totalTx s := by
  unfold buyCycle
  rw [buyRounds_sent env s (rounds s) CycleState.init (by simp [CycleState.init])]
  have h := rounds_mul_ge s
  have h2 : totalTx s ≤ rounds s * ((cycleWallets s).length * txPerWalletPerRound s) := by
    unfold totalTx
    calc (cycleWallets s).length * speedRate s
        ≤ (cycleWallets s).length * (rounds s * txPerWalletPerRound s) :=
          Nat.mul_le_mul_left _ h
      _ = rounds s * ((cycleWallets s).length * txPerWalletPerRound s) := by ring
  simp only [CycleState.init, Nat.zero_add]
  omega

/-! ## Scheduler: properties kept by every iteration -/

theorem buyInner_keeps (env : Env) (s : Session) (i : Nat) (w : Wallet) (P : CycleState → Prop)
    (hop : ∀ st, st.sent < totalTx s → P st → P (buySubOp env s i w st)) :
    ∀ (t : Nat) (st : CycleState), P st → P (buyInner env s i w t st) := by
  intro t
  induction t with
  | zero => intro st h; exact h
  | succ t ih =>
    intro st h
    unfold buyInner
    split_ifs with hge
    · exact h
    · exact ih _ (hop st (by omega) h)

theorem buyWallets_keeps (env : Env) (s : Session) (P : CycleState → Prop) :
    ∀ (ws : List Wallet) (i : Nat),
      (∀ j, ∀ w ∈ ws, ∀ st, st.sent < totalTx s → P st → P (buySubOp env s j w st)) →
      ∀ (st : CycleState), P st → P (buyWallets env s i ws st) := by
  intro ws
  induction ws with
  | nil => intro _ _ st h; exact h
  | cons w ws ih =>
    intro i hop st h
    unfold buyWallets
    exact ih (i + 1) (fun j w' hw' => hop j w' (List.mem_cons_of_mem _ hw')) _
      (buyInner_keeps env s i w P (hop i w (List.mem_cons_self _ _)) _ st h)

theorem buyRounds_keeps (env : Env) (s : Session) (P : CycleState → Prop)
    (hop : ∀ j, ∀ w ∈ cycleWallets s, ∀ st, st.sent < totalTx s → P st →
      P (buySubOp env s j w st))
    (hend : ∀ st, P st → P (endRound s "buy" st)) :
    ∀ (r : Nat) (st : CycleState), P st → P (buyRounds env s r st) := by
  intro r
  induction r with
  | zero => intro st h; exact h
  | succ r ih =>
    intro st h
    unfold buyRounds
    exact ih _ (hend _ (buyWallets_keeps env s P _ 0 hop st h))

theorem sellInner_keeps (env : Env) (s : Session) (w : Wallet) (P : CycleState → Prop)
    (hop : ∀ st, st.sent < totalTx s → P st → P (sellSubOp env s w st)) :
    ∀ (t : Nat) (st : CycleState), P st → P (sellInner env s w t st) := by
  intro t
  induction t with
  | zero => intro st h; exact h
  | succ t ih =>
    intro st h
    unfold sellInner
    split_ifs with hge
    · exact h
    · exact ih _ (hop st (by omega) h)

theorem sellWallets_keeps (env : Env) (s : Session) (P : CycleState → Prop) :
    ∀ (ws : List Wallet),
      (∀ w ∈ ws, ∀ st, st.sent < totalTx s → P st → P (sellSubOp env s w st)) →
      ∀ (st : CycleState), P st → P (sellWallets env s ws st) := by
  intro ws
  induction ws with
  | nil => intro _ st h; exact h
  | cons w ws ih =>
    intro hop st h
    unfold sellWallets
    exact ih (fun w' hw' => hop w' (List.mem_cons_of_mem _ hw')) _
      (sellInner_keeps env s w P (hop w (List.mem_cons_self _ _)) _ st h)

theorem sellRounds_keeps (env : Env) (s : Session) (P : CycleState → Prop)
    (hop : ∀ w ∈ cycleWallets s, ∀ st, st.sent < totalTx s → P st → P (sellSubOp env s w st))
    (hend : ∀ st, P st → P (endRound s "sell" st)) :
    ∀ (r : Nat) (st : CycleState), P st → P (sellRounds env s r st) := by
  intro r
  induction r with
  | zero => intro st h; exact h
  | succ r ih =>
    intro st h
    unfold sellRounds
    exact ih _ (hend _ (sellWallets_keeps env s P _ hop st h))

theorem endRound_fields (s : Session) (side : String) (st : CycleState) :
    (endRound s side st).sent = st.sent ∧ (endRound s side st).log = st.log ∧
    (endRound s side st).swapCalls = st.swapCalls ∧
    (endRound s side st).balanceCalls = st.balanceCalls ∧
    (endRound s side st).skippedWallets = st.skippedWallets ∧
    (endRound s side st).progress = st.progress ++ [progressMsg st.sent (totalTx s) side] := by
  unfold endRound
  simp only
  split_ifs <;> simp

/-- The buy loop emits one progress notification per round. -/
theorem buyRounds_progress (env : Env) (s : Session) :
    ∀ (r : Nat) (st : CycleState),
      (buyRounds env s r st).progress.length = st.progress.length + r := by
  intro r
  induction r with
  | zero => intro st; simp [buyRounds]
  | succ r ih =>
    intro st
    unfold buyRounds
    rw [ih, (endRound_fields s "buy" _).2.2.2.2.2]
    have h := buyWallets_keeps env s (fun st' => st'.progress = st.progress) (cycleWallets s) 0
      (fun _ w _ st' _ h' => by simpa [buySubOp] using h') st rfl
    simp only at h
    rw [List.length_append, h]
    simp
    omega

/-- The sell loop emits one progress notification per round. -/
theorem sellRounds_progress (env : Env) (s : Session) :
    ∀ (r : Nat) (st : CycleState),
      (sellRounds env s r st).progress.length = st.progress.length + r := by
  intro r
  induction r with
  | zero => intro st; simp [sellRounds]
  | succ r ih =>
    intro st
    unfold sellRounds
    rw [ih, (endRound_fields s "sell" _).2.2.2.2.2]
    have h := sellWallets_keeps env s (fun st' => st'.progress = st.progress) (cycleWallets s)
      (fun w _ st' _ h' => by
        unfold sellSubOp
        simp only
        split_ifs <;> simpa using h') st rfl
    simp only at h
    rw [List.length_append, h]
    simp
    omega

/-- What holds of the log and the swap calls throughout a buy cycle. -/
theorem buyCycle_log (env : Env) (s : Session) :
    (buyCycle env s).log.length = (buyCycle env s).swapCalls.length ∧
    (buyCycle env s).swapCalls.length = (buyCycle env s).sent ∧
    (∀ (i : Nat) (call : SwapCall), (buyCycle env s).swapCalls[i]? = some call →
      (buyCycle env s).log[i]? = some (swapEntry s.tradeNetwork (env.sendBuyTx i call)) ∧
      ∃ w ∈ cycleWallets s, call = swapCallOf s w) := by
  unfold buyCycle
  refine buyRounds_keeps env s (fun st => st.log.length = st.swapCalls.length ∧
    st.swapCalls.length = st.sent ∧
    (∀ (i : Nat) (call : SwapCall), st.swapCalls[i]? = some call →
      st.log[i]? = some (swapEntry s.tradeNetwork (env.sendBuyTx i call)) ∧
      ∃ w ∈ cycleWallets s, call = swapCallOf s w)) ?_ ?_ (rounds s) CycleState.init ?_
  · rintro j w hw st _ ⟨h1, h2, h3⟩
    refine ⟨by simp [buySubOp, h1], by simp [buySubOp, h2], ?_⟩
    intro i call hi
    simp only [buySubOp] at hi ⊢
    rcases Nat.lt_or_ge i st.swapCalls.length with hlt | hge
    · rw [List.getElem?_append_left hlt] at hi
      rw [List.getElem?_append_left (by omega)]
      exact h3 i call hi
    · rw [List.getElem?_append_right hge] at hi
      rw [List.getElem?_append_right (by omega)]
      have hi0 : i - st.swapCalls.length = 0 := by
        by_contra hne
        obtain ⟨k, hk⟩ := Nat.exists_eq_succ_of_ne_zero hne
        rw [hk] at hi
        simp at hi
      have hieq : i = st.swapCalls.length := by omega
      rw [hi0] at hi
      simp only [List.getElem?_cons_zero, Option.some.injEq] at hi
      subst hi
      rw [h1, hi0, hieq]
      exact ⟨by simp, w, hw, rfl⟩
  · rintro st ⟨h1, h2, h3⟩
    obtain ⟨e1, e2, e3, _⟩ := endRound_fields s "buy" st
    rw [e1, e2, e3]
    exact ⟨h1, h2, h3⟩
  · simp [CycleState.init]

/-! ## Scheduler: the sell loop -/

/-- What holds of the log, the balance checks and the swap calls throughout a
sell cycle. -/
theorem sellCycle_log (env : Env) (s : Session) :
    (sellCycle env s).log.length = (sellCycle env s).balanceCalls.length ∧
    (sellCycle env s).swapCalls.length = (sellCycle env s).sent ∧
    (sellCycle env s).sent ≤ totalTx s ∧
    (sellCycle env s).skippedWallets.length + (sellCycle env s).sent =
      (sellCycle env s).balanceCalls.length ∧
    (sellCycle env s).sent = ((sellCycle env s).balanceCalls.enum.filter
      (fun p => !lowBalance (env.getWalletBalance p.1 s.tradeNetwork p.2))).length ∧
    (sellCycle env s).skippedWallets = ((sellCycle env s).balanceCalls.enum.filter
      (fun p => lowBalance (env.getWalletBalance p.1 s.tradeNetwork p.2))).map Prod.snd ∧
    (∀ (i : Nat) (pub : String), (sellCycle env s).balanceCalls[i]? = some pub →
      lowBalance (env.getWalletBalance i s.tradeNetwork pub) = true →
      (sellCycle env s).log[i]? = some (skipEntry pub)) := by
  unfold sellCycle
  refine sellRounds_keeps env s (fun st => st.log.length = st.balanceCalls.length ∧
    st.swapCalls.length = st.sent ∧ st.sent ≤ totalTx s ∧
    st.skippedWallets.length + st.sent = st.balanceCalls.length ∧
    st.sent = (st.balanceCalls.enum.filter
      (fun p => !lowBalance (env.getWalletBalance p.1 s.tradeNetwork p.2))).length ∧
    st.skippedWallets = (st.balanceCalls.enum.filter
      (fun p => lowBalance (env.getWalletBalance p.1 s.tradeNetwork p.2))).map Prod.snd ∧
    (∀ (i : Nat) (pub : String), st.balanceCalls[i]? = some pub →
      lowBalance (env.getWalletBalance i s.tradeNetwork pub) = true →
      st.log[i]? = some (skipEntry pub))) ?_ ?_ (rounds s) CycleState.init ?_
  · rintro w hw st hlt ⟨h1, h2, h3, h4, h5, h6, h7⟩
    have key : ∀ (l : List String) (i : Nat) (pub : String),
        (st.balanceCalls ++ [w.publicKey])[i]? = some pub →
        lowBalance (env.getWalletBalance i s.tradeNetwork pub) = true →
        (lowBalance (env.getWalletBalance st.balanceCalls.length s.tradeNetwork w.publicKey)
            = true → l = [skipEntry w.publicKey]) →
        l.length = 1 → (st.log ++ l)[i]? = some (skipEntry pub) := by
      intro l i pub hi hlow hl hlen
      rcases Nat.lt_or_ge i st.balanceCalls.length with hlt | hge
      · rw [List.getElem?_append_left hlt] at hi
        rw [List.getElem?_append_left (by omega)]
        exact h7 i pub hi hlow
      · rw [List.getElem?_append_right hge] at hi
        have hi0 : i - st.balanceCalls.length = 0 := by
          by_contra hne
          obtain ⟨k, hk⟩ := Nat.exists_eq_succ_of_ne_zero hne
          rw [hk] at hi
          simp at hi
        have hieq : i = st.balanceCalls.length := by omega
        rw [hi0] at hi
        simp only [List.getElem?_cons_zero, Option.some.injEq] at hi
        subst hi
        rw [hieq] at hlow
        rw [List.getElem?_append_right (by omega), h1, hi0, hl hlow]
        simp
    unfold sellSubOp
    simp only
    split_ifs with hlow
    · refine ⟨by simp [h1], h2, h3, by simp; omega, ?_, ?_, ?_⟩
      · simp [List.enum_append, List.filter_append, List.enumFrom_singleton, List.filter_cons,
          hlow, ← h5]
      · simp [List.enum_append, List.filter_append, List.enumFrom_singleton, List.filter_cons,
          hlow, ← h6]
      · intro i pub hi hl
        exact key _ i pub hi hl (fun _ => rfl) rfl
    · refine ⟨by simp [h1], by simp [h2], by simp; omega, by simp; omega, ?_, ?_, ?_⟩
      · simp [List.enum_append, List.filter_append, List.enumFrom_singleton, List.filter_cons,
          hlow, ← h5]
      · simp [List.enum_append, List.filter_append, List.enumFrom_singleton, List.filter_cons,
          hlow, ← h6]
      · intro i pub hi hl
        exact key _ i pub hi hl (fun h => absurd h hlow) rfl
  · rintro st ⟨h1, h2, h3, h4, h5, h6, h7⟩
    obtain ⟨e1, e2, e3, e4, e5, _⟩ := endRound_fields s "sell" st
    rw [e1, e2, e3, e4, e5]
    exact ⟨h1, h2, h3, h4, h5, h6, h7⟩
  · simp [CycleState.init]

theorem sellSubOp_sent_of_ok (env : Env) (s : Session) (w : Wallet) (st : CycleState)
    (hok : lowBalance (env.getWalletBalance st.balanceCalls.length s.tradeNetwork w.publicKey)
      = false) :
    (sellSubOp env s w st).sent = st.sent + 1 := by
  unfold sellSubOp
  simp [hok]

theorem sellSubOp_of_low (env : Env) (s : Session) (w : Wallet) (st : CycleState)
    (hlow : lowBalance (env.getWalletBalance st.balanceCalls.length s.tradeNetwork w.publicKey)
      = true) :
    (sellSubOp env s w st).sent = st.sent ∧
    (sellSubOp env s w st).swapCalls = st.swapCalls ∧
    (sellSubOp env s w st).log = st.log ++ [skipEntry w.publicKey] ∧
    (sellSubOp env s w st).skippedWallets = st.skippedWallets ++ [w.publicKey] := by
  unfold sellSubOp
  simp [hlow]

theorem sellInner_sent (env : Env) (s : Session) (w : Wallet)
    (hok : ∀ (i : Nat) (pub : String),
      lowBalance (env.getWalletBalance i s.tradeNetwork pub) = false) :
    ∀ (t : Nat) (st : CycleState), st.sent ≤ totalTx s →
      (sellInner env s w t st).sent = min (st.sent + t) (totalTx s) := by
  intro t
  induction t with
  | zero => intro st h; simp [sellInner, h]
  | succ t ih =>
    intro st h
    unfold sellInner
    have h1 := sellSubOp_sent_of_ok env s w st (hok _ _)
    split_ifs with hge
    · omega
    · rw [ih _ (by omega), h1]
      omega

theorem sellWallets_sent (env : Env) (s : Session)
    (hok : ∀ (i : Nat) (pub : String),
      lowBalance (env.getWalletBalance i s.tradeNetwork pub) = false) :
    ∀ (ws : List Wallet) (st : CycleState), st.sent ≤ totalTx s →
      (sellWallets env s ws st).sent =
        min (st.sent + ws.length * txPerWalletPerRound s) (totalTx s) := by
  intro ws
  induction ws with
  | nil => intro st h; simp [sellWallets, h]
  | cons w ws ih =>
    intro st h
    unfold sellWallets
    have h1 := sellInner_sent env s w hok (txPerWalletPerRound s) st h
    rw [ih _ (by rw [h1]; omega), h1]
    simp only [List.length_cons, Nat.add_mul, Nat.one_mul]
    omega

theorem sellRounds_sent (env : Env) (s : Session)
    (hok : ∀ (i : Nat) (pub : String),
      lowBalance (env.getWalletBalance i s.tradeNetwork pub) = false) :
    ∀ (r : Nat) (st : CycleState), st.sent ≤ totalTx s →
      (sellRounds env s r st).sent =
        min (st.sent + r * ((cycleWallets s).length * txPerWalletPerRound s)) (totalTx s) := by
  intro r
  induction r with
  | zero => intro st h; simp [sellRounds, h]
  | succ r ih =>
    intro st h
    unfold sellRounds
    have h1 := sellWallets_sent env s hok (cycleWallets s) st h
    have h2 := endRound_sent s "sell" (sellWallets env s (cycleWallets s) st)
    rw [ih _ (by rw [h2, h1]; omega), h2, h1]
    simp only [Nat.add_mul, Nat.one_mul]
    omega

theorem plan_covers_total (s : Session) :
    totalTx s ≤ rounds s * ((cycleWallets s).length * txPerWalletPerRound s) := by
  have h := rounds_mul_ge s
  unfold totalTx
  calc (cycleWallets s).length * speedRate s
      ≤ (cycleWallets s).length * (rounds s * txPerWalletPerRound s) :=
        Nat.mul_le_mul_left _ h
    _ = rounds s * ((cycleWallets s).length * txPerWalletPerRound s) := by ring

theorem sellCycle_sent_of_ok (env : Env) (s : Session)
    (hok : ∀ (i : Nat) (pub : String),
      lowBalance (env.getWalletBalance i s.tradeNetwork pub) = false) :
    (sellCycle env s).sent = totalTx s := by
  unfold sellCycle
  rw [sellRounds_sent env s hok (rounds s) CycleState.init (by simp [CycleState.init])]
  have h2 := plan_covers_total s
  simp only [CycleState.init, Nat.zero_add]
  omega

/-! ## Scheduler: the claims -/

/-- C1: for each entry of `SPEEDS` and every wallet list, in the buy cycle and in
the sell cycle alike, `totalTx` is the number of wallets times the rate of the
speed, and the number of progress notifications is the ceiling of the rate over
`txPerWalletPerRound`: rate 4, 1 per round, 4 notifications for `slow`; 9, 2, 5
for `moderate`; 12, 4, 3 for `fast`; whatever the collaborators return. -/
theorem schedule_total_and_notifications (env : Env) (s : Session) (sp : Speed)
    (hsp : sp ∈ SPEEDS) (hs : s.selectedSpeed = some sp) :
    totalTx s = (cycleWallets s).length * sp.rate ∧
    (buyCycle env s).progress.length = ⌈(sp.rate : ℚ) / (txPerWalletPerRound s : ℚ)⌉₊ ∧
    (sellCycle env s).progress.length = ⌈(sp.rate : ℚ) / (txPerWalletPerRound s : ℚ)⌉₊ ∧
    ((sp.value = "slow" ∧ sp.rate = 4 ∧ txPerWalletPerRound s = 1 ∧
        (buyCycle env s).progress.length = 4 ∧ (sellCycle env s).progress.length = 4) ∨
     (sp.value = "moderate" ∧ sp.rate = 9 ∧ txPerWalletPerRound s = 2 ∧
        (buyCycle env s).progress.length = 5 ∧ (sellCycle env s).progress.length = 5) ∨
     (sp.value = "fast" ∧ sp.rate = 12 ∧ txPerWalletPerRound s = 4 ∧
        (buyCycle env s).progress.length = 3 ∧ (sellCycle env s).progress.length = 3)) := by
  have hb : (buyCycle env s).progress.length = rounds s := by
    unfold buyCycle
    rw [buyRounds_progress]
    simp [CycleState.init]
  have hsell : (sellCycle env s).progress.length = rounds s := by
    unfold sellCycle
    rw [sellRounds_progress]
    simp [CycleState.init]
  have hrate : speedRate s = sp.rate := by simp [speedRate, hs]
  rw [hb, hsell]
  simp only [SPEEDS, List.mem_cons, List.mem_singleton, List.not_mem_nil, or_false] at hsp
  rcases hsp with rfl | rfl | rfl
  · have ht : txPerWalletPerRound s = 1 := by simp [txPerWalletPerRound, hs]
    have hr : rounds s = 4 := by simp [rounds, hrate, ht]
    refine ⟨by simp [totalTx, hrate], ?_, ?_, Or.inl ⟨rfl, rfl, ht, hr, hr⟩⟩ <;>
      · rw [hr, ht]; norm_num
  · have ht : txPerWalletPerRound s = 2 := by simp [txPerWalletPerRound, hs]
    have hr : rounds s = 5 := by simp [rounds, hrate, ht]
    have hc : ⌈((9 : ℕ) : ℚ) / ((2 : ℕ) : ℚ)⌉₊ = 5 := by
      rw [Nat.ceil_eq_iff (by norm_num)]
      norm_num
    refine ⟨by simp [totalTx, hrate], ?_, ?_, Or.inr (Or.inl ⟨rfl, rfl, ht, hr, hr⟩)⟩ <;>
      · rw [hr, ht]; exact hc.symm
  · have ht : txPerWalletPerRound s = 4 := by simp [txPerWalletPerRound, hs]
    have hr : rounds s = 3 := by simp [rounds, hrate, ht]
    have hc : ⌈((12 : ℕ) : ℚ) / ((4 : ℕ) : ℚ)⌉₊ = 3 := by
      rw [Nat.ceil_eq_iff (by norm_num)]
      norm_num
    refine ⟨by simp [totalTx, hrate], ?_, ?_, Or.inr (Or.inr ⟨rfl, rfl, ht, hr, hr⟩)⟩ <;>
      · rw [hr, ht]; exact hc.symm

/-- C1 exercised: three wallets at speed `moderate` give 27 operations and five
progress notifications in both cycles. -/
theorem schedule_total_and_notifications_witness :
    totalTx (sampleSession sampleWallets (some moderateSpeed)) = 3 * 9 ∧
    (buyCycle sampleEnv (sampleSession sampleWallets (some moderateSpeed))).progress.length = 5 ∧
    (sellCycle sampleEnv (sampleSession sampleWallets (some moderateSpeed))).progress.length = 5 := by
  have h := schedule_total_and_notifications sampleEnv
    (sampleSession sampleWallets (some moderateSpeed)) moderateSpeed
    (by simp [SPEEDS, moderateSpeed]) rfl
  obtain ⟨h1, -, -, h4⟩ := h
  refine ⟨h1, ?_, ?_⟩
  · rcases h4 with h4 | h4 | h4
    · exact absurd h4.2.1 (by decide)
    · exact h4.2.2.2.1
    · exact absurd h4.2.1 (by decide)
  · rcases h4 with h4 | h4 | h4
    · exact absurd h4.2.1 (by decide)
    · exact h4.2.2.2.2
    · exact absurd h4.2.1 (by decide)

/-- C2: a buy cycle that is admitted calls the swap collaborator exactly
wallets times rate times, whatever the calls return, and leaves under the trade
network a log with one entry per call, in call order: when call `i` succeeded,
`https://etherscan.io/tx/` on Ethereum, `https://bscscan.com/tx/` on BSC and
`https://solscan.io/tx/` otherwise, followed by the transaction id; when it
failed, `Error: ` followed by the message.  The log does not depend on what an
earlier cycle stored. -/
theorem buy_cycle_runs_to_budget (env : Env) (s : Session) (sp : Speed)
    (hs : s.selectedSpeed = some sp) (hready : s.buySellReady = true) :
    (onCallbackQuery env s "buy_tokens").swapCalls.length = (cycleWallets s).length * sp.rate ∧
    ∃ log : List String,
      (onCallbackQuery env s "buy_tokens").session.lastTxs =
        some (setKey (orEmpty s.lastTxs) s.tradeNetwork log) ∧
      orEmpty (onCallbackQuery env s "buy_tokens").session.lastTxs s.tradeNetwork = some log ∧
      log.length = (cycleWallets s).length * sp.rate ∧
      ∀ i, i < (cycleWallets s).length * sp.rate →
        ∃ call, (onCallbackQuery env s "buy_tokens").swapCalls[i]? = some call ∧
          (∃ w ∈ cycleWallets s, call = swapCallOf s w) ∧
          log[i]? = some (match env.sendBuyTx i call with
            | .success txid =>
              (match s.tradeNetwork with
                | some .Ethereum => "https://etherscan.io/tx/"
                | some .BSC => "https://bscscan.com/tx/"
                | _ => "https://solscan.io/tx/") ++ txid
            | .failure err => "Error: " ++ err) := by
  have hrate : speedRate s = sp.rate := by simp [speedRate, hs]
  have hsent := buyCycle_sent env s
  obtain ⟨h1, h2, h3⟩ := buyCycle_log env s
  have hout : onCallbackQuery env s "buy_tokens" = buyTokens env s := by
    simp [onCallbackQuery]
  rw [hout]
  simp only [buyTokens, hready, Bool.not_true, Bool.false_eq_true, if_false]
  have hlen : (buyCycle env s).swapCalls.length = (cycleWallets s).length * sp.rate := by
    rw [h2, hsent, totalTx, hrate]
  refine ⟨hlen, (buyCycle env s).log, rfl, by simp [orEmpty, setKey], by rw [h1, hlen], ?_⟩
  intro i hi
  have hi2 : i < (buyCycle env s).swapCalls.length := by omega
  refine ⟨(buyCycle env s).swapCalls[i], List.getElem?_eq_getElem hi2, ?_⟩
  obtain ⟨h4, h5⟩ := h3 i _ (List.getElem?_eq_getElem hi2)
  refine ⟨h5, ?_⟩
  rw [h4]
  generalize s.tradeNetwork = net
  cases env.sendBuyTx i (buyCycle env s).swapCalls[i]
  · rcases net with _ | _ | _ | _ <;> rfl
  · rfl

/-- C2 exercised with every third swap failing.  Three Solana wallets at speed
`slow`, an older log present: twelve calls, and the log holds exactly the twelve
new entries.  One wallet on Ethereum and one on BSC: the four entries carry the
address of the explorer of that network. -/
theorem buy_cycle_runs_to_budget_witness :
    (onCallbackQuery sampleEnv
      { sampleSession sampleWallets (some slowSpeed) with
        lastTxs := some (fun _ => some ["old entry"]) } "buy_tokens").swapCalls.length = 3 * 4 ∧
    orEmpty (onCallbackQuery sampleEnv
      { sampleSession sampleWallets (some slowSpeed) with
        lastTxs := some (fun _ => some ["old entry"]) } "buy_tokens").session.lastTxs
        (some .Solana) =
      some ["Error: reverted", "https://solscan.io/tx/abc", "https://solscan.io/tx/abc",
            "Error: reverted", "https://solscan.io/tx/abc", "https://solscan.io/tx/abc",
            "Error: reverted", "https://solscan.io/tx/abc", "https://solscan.io/tx/abc",
            "Error: reverted", "https://solscan.io/tx/abc", "https://solscan.io/tx/abc"] ∧
    orEmpty (onCallbackQuery sampleEnv (sessionOn .Ethereum) "buy_tokens").session.lastTxs
        (some .Ethereum) =
      some ["Error: reverted", "https://etherscan.io/tx/abc", "https://etherscan.io/tx/abc",
            "Error: reverted"] ∧
    orEmpty (onCallbackQuery sampleEnv (sessionOn .BSC) "buy_tokens").session.lastTxs
        (some .BSC) =
      some ["Error: reverted", "https://bscscan.com/tx/abc", "https://bscscan.com/tx/abc",
            "Error: reverted"] :=
  ⟨(buy_cycle_runs_to_budget sampleEnv
      { sampleSession sampleWallets (some slowSpeed) with
        lastTxs := some (fun _ => some ["old entry"]) } slowSpeed rfl rfl).1,
   by decide, by decide, by decide⟩

/-- C3: in every sell cycle, a sub-operation whose balance check returned the
`Error` sentinel or a value below 0.002 makes no swap call and appends exactly
one `Skipped (low balance)` entry naming the public address of the wallet.  Per
sub-operation: the swap calls are unchanged and the log grows by that one entry.
Over the whole cycle: every balance check has exactly one log entry, at the same
position; that entry is the skip entry of the checked wallet whenever the check
was low; and the swap calls are as many as the checks that were not low. -/
theorem sell_skips_low_balance (env : Env) (s : Session) :
    (∀ (w : Wallet) (st : CycleState),
      lowBalance (env.getWalletBalance st.balanceCalls.length s.tradeNetwork w.publicKey) = true →
      (sellSubOp env s w st).swapCalls = st.swapCalls ∧
      (sellSubOp env s w st).log = st.log ++ [skipEntry w.publicKey]) ∧
    (sellCycle env s).log.length = (sellCycle env s).balanceCalls.length ∧
    (sellCycle env s).swapCalls.length = ((sellCycle env s).balanceCalls.enum.filter
      (fun p => !lowBalance (env.getWalletBalance p.1 s.tradeNetwork p.2))).length ∧
    (∀ (i : Nat) (pub : String), (sellCycle env s).balanceCalls[i]? = some pub →
      lowBalance (env.getWalletBalance i s.tradeNetwork pub) = true →
      (sellCycle env s).log[i]? = some ("Skipped (low balance): <code>" ++ pub ++ "</code>")) := by
  obtain ⟨h1, h2, -, -, h5, -, h7⟩ := sellCycle_log env s
  refine ⟨fun w st hlow => ?_, h1, by rw [h2, h5], h7⟩
  obtain ⟨-, e2, e3, -⟩ := sellSubOp_of_low env s w st hlow
  exact ⟨e2, e3⟩

/-- C3 exercised: with a balance collaborator that always fails, the first
sub-operation of a sell cycle over three wallets is logged as a skip of the
first wallet. -/
theorem sell_skips_low_balance_witness :
    (sellCycle failingEnv (sampleSession sampleWallets (some slowSpeed))).log[0]? =
      some ("Skipped (low balance): <code>" ++ "PubA" ++ "</code>") :=
  (sell_skips_low_balance failingEnv (sampleSession sampleWallets (some slowSpeed))).2.2.2
    0 "PubA" (by decide) (by decide)

/-- C4 as stated fails: one wallet at speed `slow` whose balance cannot be read.
All four sub-operations are skipped, `sent` ends at 0, `totalTx` is 4. -/
theorem sell_skip_keeps_sent_counterexample :
    (sellCycle failingEnv
      (sampleSession [{ publicKey := "PubA", privateKey := "PrivA" }] (some slowSpeed))).sent = 0 ∧
    totalTx (sampleSession [{ publicKey := "PubA", privateKey := "PrivA" }] (some slowSpeed)) = 4 ∧
    (sellCycle failingEnv
      (sampleSession [{ publicKey := "PubA", privateKey := "PrivA" }] (some slowSpeed))).sent ≠
    totalTx (sampleSession [{ publicKey := "PubA", privateKey := "PrivA" }] (some slowSpeed)) := by
  decide

/-- C4 amended: in a sell cycle a skipped sub-operation leaves `sent` as it is
and only a swap, successful or failed, increments it.  The final `sent` is the
number of swap calls, the log has `sent` plus the number of skips entries, `sent`
never exceeds wallets times rate, and it reaches wallets times rate when no
balance check of the cycle is low or unreadable. -/
theorem sell_sent_counts_swaps (env : Env) (s : Session) (sp : Speed)
    (hs : s.selectedSpeed = some sp) :
    (∀ (w : Wallet) (st : CycleState),
      (sellSubOp env s w st).sent =
        if lowBalance (env.getWalletBalance st.balanceCalls.length s.tradeNetwork w.publicKey)
        then st.sent else st.sent + 1) ∧
    (sellCycle env s).sent = (sellCycle env s).swapCalls.length ∧
    (sellCycle env s).log.length =
      (sellCycle env s).sent + (sellCycle env s).skippedWallets.length ∧
    (sellCycle env s).sent ≤ (cycleWallets s).length * sp.rate ∧
    ((∀ (i : Nat) (pub : String),
        lowBalance (env.getWalletBalance i s.tradeNetwork pub) = false) →
      (sellCycle env s).sent = (cycleWallets s).length * sp.rate) := by
  have hrate : speedRate s = sp.rate := by simp [speedRate, hs]
  obtain ⟨h1, h2, h3, h4, -⟩ := sellCycle_log env s
  refine ⟨fun w st => ?_, h2.symm, by omega, by simpa [totalTx, hrate] using h3, fun hok => ?_⟩
  · unfold sellSubOp
    simp only
    split_ifs <;> rfl
  · rw [sellCycle_sent_of_ok env s hok, totalTx, hrate]

/-- C4 amended, exercised: three funded wallets at speed `moderate` end a sell
cycle with `sent` at 27. -/
theorem sell_sent_counts_swaps_witness :
    (sellCycle fundedEnv (sampleSession sampleWallets (some moderateSpeed))).sent = 3 * 9 :=
  (sell_sent_counts_swaps fundedEnv (sampleSession sampleWallets (some moderateSpeed))
    moderateSpeed rfl).2.2.2.2 (fun _ _ => by
      simp only [fundedEnv, lowBalance, decide_eq_false_iff_not]
      norm_num)

theorem char_le_iff (a c : Char) : a ≤ c ↔ a.toNat ≤ c.toNat := Iff.rfl

theorem uint32_le_iff (a b : UInt32) : a ≤ b ↔ a.toNat ≤ b.toNat := Iff.rfl

theorem char_eq_iff (a c : Char) : a = c ↔ a.toNat = c.toNat := by
  constructor
  · intro h; rw [h]
  · intro h
    apply Char.ext
    exact UInt32.toNat.inj h

theorem isBase58_iff (c : Char) :
    isBase58 c = true ↔
      (c.isDigit = true ∨ c.isAlpha = true) ∧ c ≠ '0' ∧ c ≠ 'O' ∧ c ≠ 'I' ∧ c ≠ 'l' := by
  simp only [isBase58, Char.isDigit, Char.isAlpha, Char.isUpper, Char.isLower, Bool.or_eq_true,
    Bool.and_eq_true, decide_eq_true_eq, char_le_iff, ne_eq, char_eq_iff, ge_iff_le,
    uint32_le_iff]
  have h48 : (48 : UInt32).toNat = 48 := rfl
  have h57 : (57 : UInt32).toNat = 57 := rfl
  have h65 : (65 : UInt32).toNat = 65 := rfl
  have h90 : (90 : UInt32).toNat = 90 := rfl
  have h97 : (97 : UInt32).toNat = 97 := rfl
  have h122 : (122 : UInt32).toNat = 122 := rfl
  have hv : c.val.toNat = c.toNat := rfl
  simp only [h48, h57, h65, h90, h97, h122, hv, Char.reduceToNat]
  omega

/-! ## Network classifier: the claims -/

/-- C10: a string of 32 to 44 characters, all of them digits or letters other
than `0`, `O`, `I` and `l`, is classified as Solana whatever the second
argument is: no session, or a session with any trade network. -/
theorem base58_address_is_solana (address : String) (session : Option Session)
    (hmin : 32 ≤ address.length) (hmax : address.length ≤ 44)
    (hchars : ∀ c ∈ address.data,
      (c.isDigit = true ∨ c.isAlpha = true) ∧ c ≠ '0' ∧ c ≠ 'O' ∧ c ≠ 'I' ∧ c ≠ 'l') :
    getNetworkFromAddress address session = some .Solana := by
  have hall : address.data.all isBase58 = true := by
    rw [List.all_eq_true]
    intro c hc
    exact (isBase58_iff c).2 (hchars c hc)
  have hm : matchesSolana address = true := by
    unfold matchesSolana
    rw [hall]
    simp only [String.length] at hmin hmax
    simp only [Bool.true_and, Bool.and_eq_true, decide_eq_true_eq]
    exact ⟨hmin, hmax⟩
  simp [getNetworkFromAddress, hm]

/-- C10 exercised: a 44-character address of the shape of the wrapped-SOL mint
is classified as Solana even under a session whose trade network is BSC. -/
theorem base58_address_is_solana_witness :
    getNetworkFromAddress "So111111111111111111111111111111111111111112"
      (some { Session.fresh with tradeNetwork := some .BSC }) = some .Solana :=
  base58_address_is_solana "So111111111111111111111111111111111111111112"
    (some { Session.fresh with tradeNetwork := some .BSC }) (by decide) (by decide) (by decide)

/-! ## Start trigger -/

theorem unfunded_eq_not_funded (b : Balance) : unfunded b = !funded b := by
  cases b with
  | error => rfl
  | value q =>
    simp only [unfunded, funded, ge_iff_le, ← not_lt, decide_not, Bool.not_not]

theorem sweep_allOk (env : Env) (net : Network) :
    ∀ (ws : List Wallet) (k : Nat) (acc : Bool × Bool),
      (sweep env net ws k acc).1 = true ↔
        acc.1 = true ∧ ∀ (j : Nat) (w : Wallet), ws[j]? = some w →
          funded (env.getWalletBalance (k + j) (some net) w.publicKey) = true := by
  intro ws
  induction ws with
  | nil => intro k acc; simp [sweep]
  | cons w ws ih =>
    intro k acc
    unfold sweep
    simp only
    rw [ih, unfunded_eq_not_funded]
    constructor
    · rintro ⟨h1, h2⟩
      cases hf : funded (env.getWalletBalance k (some net) w.publicKey) with
      | false => simp [hf] at h1
      | true =>
        simp only [hf, Bool.not_true, Bool.false_eq_true, if_false] at h1
        refine ⟨h1, fun j w' hj => ?_⟩
        cases j with
        | zero =>
          simp only [List.getElem?_cons_zero, Option.some.injEq] at hj
          subst hj
          simpa using hf
        | succ j =>
          simp only [List.getElem?_cons_succ] at hj
          have := h2 j w' hj
          rwa [show k + 1 + j = k + (j + 1) by omega] at this
    · rintro ⟨h1, h2⟩
      have hf : funded (env.getWalletBalance k (some net) w.publicKey) = true := by
        simpa using h2 0 w (by simp)
      refine ⟨by simp [hf, h1], fun j w' hj => ?_⟩
      have := h2 (j + 1) w' (by simpa using hj)
      rwa [show k + (j + 1) = k + 1 + j by omega] at this

theorem sweep_anyFunded (env : Env) (net : Network) :
    ∀ (ws : List Wallet) (k : Nat) (acc : Bool × Bool),
      (sweep env net ws k acc).2 = true ↔
        acc.2 = true ∨ ∃ (j : Nat) (w : Wallet), ws[j]? = some w ∧
          funded (env.getWalletBalance (k + j) (some net) w.publicKey) = true := by
  intro ws
  induction ws with
  | nil => intro k acc; simp [sweep]
  | cons w ws ih =>
    intro k acc
    unfold sweep
    simp only
    rw [ih]
    constructor
    · rintro (h1 | ⟨j, w', hj, hf⟩)
      · cases hf : funded (env.getWalletBalance k (some net) w.publicKey) with
        | false =>
          simp only [hf, Bool.false_eq_true, if_false] at h1
          exact Or.inl h1
        | true => exact Or.inr ⟨0, w, by simp, by simpa using hf⟩
      · refine Or.inr ⟨j + 1, w', by simpa using hj, ?_⟩
        rwa [show k + (j + 1) = k + 1 + j by omega]
    · rintro (h1 | ⟨j, w', hj, hf⟩)
      · left
        split_ifs <;> simp [h1]
      · cases j with
        | zero =>
          simp only [List.getElem?_cons_zero, Option.some.injEq] at hj
          subst hj
          left
          simp only [Nat.add_zero] at hf
          simp [hf]
        | succ j =>
          simp only [List.getElem?_cons_succ] at hj
          refine Or.inr ⟨j, w', hj, ?_⟩
          rwa [show k + 1 + j = k + (j + 1) by omega]

/-- C5: the start trigger sets `step` to `await_slippage` exactly when the
trade network and a non-empty token address are set, the wallet list of the
trade network is not empty, every balance query of the handler (the probe of
the first wallet, then one query per wallet of the list, the first included)
returns an amount of at least 0.01, and a speed is selected; in every other
case `step` keeps its value, and the slippage prompt is sent in the first case
only. -/
theorem start_volume_gate (env : Env) (s : Session) :
    ((∃ net w0 ws, s.tradeNetwork = some net ∧ truthy s.tokenAddress = true ∧
        s.wallets net = w0 :: ws ∧
        funded (env.getWalletBalance 0 (some net) w0.publicKey) = true ∧
        (∀ (j : Nat) (w : Wallet), (s.wallets net)[j]? = some w →
          funded (env.getWalletBalance (1 + j) (some net) w.publicKey) = true) ∧
        s.selectedSpeed.isSome = true) →
      (handle env s (.text "🚀 Start Volume Bot")).session.step = some .await_slippage ∧
      (handle env s (.text "🚀 Start Volume Bot")).replies =
        ["Enter slippage % (e.g. 0.5 for 0.5%, max 50, min 0.1, default 1):"]) ∧
    ((¬ ∃ net w0 ws, s.tradeNetwork = some net ∧ truthy s.tokenAddress = true ∧
        s.wallets net = w0 :: ws ∧
        funded (env.getWalletBalance 0 (some net) w0.publicKey) = true ∧
        (∀ (j : Nat) (w : Wallet), (s.wallets net)[j]? = some w →
          funded (env.getWalletBalance (1 + j) (some net) w.publicKey) = true) ∧
        s.selectedSpeed.isSome = true) →
      (handle env s (.text "🚀 Start Volume Bot")).session.step = s.step ∧
      (handle env s (.text "🚀 Start Volume Bot")).replies ≠
        ["Enter slippage % (e.g. 0.5 for 0.5%, max 50, min 0.1, default 1):"]) := by
  have hh : handle env s (.text "🚀 Start Volume Bot") = startVolume env s := by
    simp [handle]
  rw [hh]
  constructor
  · rintro ⟨net, w0, ws, hnet, htok, hws, hf0, hall, hsp⟩
    obtain ⟨sp, hsp'⟩ := Option.isSome_iff_exists.mp hsp
    have hu0 : unfunded (env.getWalletBalance 0 (some net) w0.publicKey) = false := by
      rw [unfunded_eq_not_funded, hf0]; rfl
    have hok : (sweep env net (w0 :: ws) 1 (true, false)).1 = true :=
      (sweep_allOk env net (w0 :: ws) 1 (true, false)).2 ⟨rfl, by rw [← hws]; exact hall⟩
    have hany : (sweep env net (w0 :: ws) 1 (true, false)).2 = true :=
      (sweep_anyFunded env net (w0 :: ws) 1 (true, false)).2
        (Or.inr ⟨0, w0, by simp, by
          have := hall 0 w0 (by rw [hws]; simp)
          simpa using this⟩)
    simp [startVolume, hnet, htok, hws, hu0, hok, hany, hsp', replyOnly]
  · intro hno
    unfold startVolume
    cases hnet : s.tradeNetwork with
    | none => simp [replyOnly]
    | some net =>
      simp only
      cases htok : truthy s.tokenAddress with
      | false => simp [replyOnly]
      | true =>
        simp only [Bool.not_true, Bool.false_eq_true, if_false]
        cases hws : s.wallets net with
        | nil => simp [replyOnly]
        | cons w0 ws =>
          simp only
          cases hu0 : unfunded (env.getWalletBalance 0 (some net) w0.publicKey) with
          | true => simp [replyOnly]
          | false =>
            simp only [Bool.false_eq_true, if_false]
            cases hany : (sweep env net (w0 :: ws) 1 (true, false)).2 with
            | false => simp [replyOnly]
            | true =>
              simp only [Bool.not_true, Bool.false_eq_true, if_false]
              cases hok : (sweep env net (w0 :: ws) 1 (true, false)).1 with
              | false => simp [replyOnly]
              | true =>
                simp only [Bool.not_true, Bool.false_eq_true, if_false]
                cases hsp : s.selectedSpeed with
                | none => simp
                | some sp =>
                  exfalso
                  apply hno
                  refine ⟨net, w0, ws, hnet, htok, hws, ?_, ?_, by simp [hsp]⟩
                  · rw [unfunded_eq_not_funded] at hu0
                    simpa using hu0
                  · have := (sweep_allOk env net (w0 :: ws) 1 (true, false)).1 hok
                    rw [hws]
                    exact this.2

/-- C5 exercised: three wallets that all report a balance of 1, speed selected:
the trigger moves the session to `await_slippage`. -/
theorem start_volume_gate_witness :
    (handle fundedEnv (sampleSession sampleWallets (some moderateSpeed))
      (.text "🚀 Start Volume Bot")).session.step = some .await_slippage :=
  ((start_volume_gate fundedEnv (sampleSession sampleWallets (some moderateSpeed))).1
    ⟨.Solana, { publicKey := "PubA", privateKey := "PrivA" },
      [{ publicKey := "PubB", privateKey := "PrivB" },
       { publicKey := "PubC", privateKey := "PrivC" }],
      rfl, by decide, rfl,
      by simp only [fundedEnv, funded, decide_eq_true_eq]; norm_num,
      fun _ _ _ => by simp only [fundedEnv, funded, decide_eq_true_eq]; norm_num,
      rfl⟩).1

/-- C6 as stated fails: token and three wallets set, every balance query
failing.  The trigger answers with the message of the first-wallet probe, not
with the message of the any-funded branch, and `activeVolume` stays unassigned. -/
theorem all_balances_fail_counterexample :
    (handle failingEnv (sampleSession sampleWallets (some moderateSpeed))
      (.text "🚀 Start Volume Bot")).replies =
      ["❌ <b>Insufficient funds in your wallet. Please fund your wallet before starting.</b>"] ∧
    (handle failingEnv (sampleSession sampleWallets (some moderateSpeed))
      (.text "🚀 Start Volume Bot")).replies ≠
      ["❌ <b>All wallets have zero or insufficient balance. Please fund your wallets before starting volume bot.</b>"] ∧
    (handle failingEnv (sampleSession sampleWallets (some moderateSpeed))
      (.text "🚀 Start Volume Bot")).session.activeVolume.isNone = true := by
  decide

/-- C6 amended: when token and wallets are set and every balance query of the
trade network returns the `Error` sentinel, the start trigger rejects with the
`Insufficient funds in your wallet` message of the first-wallet probe, leaves
the session as it was, and makes no swap call. -/
theorem all_balances_fail_rejected (env : Env) (s : Session) (net : Network)
    (hnet : s.tradeNetwork = some net) (htok : truthy s.tokenAddress = true)
    (hws : s.wallets net ≠ [])
    (hfail : ∀ (i : Nat) (pub : String), env.getWalletBalance i (some net) pub = .error) :
    (handle env s (.text "🚀 Start Volume Bot")).replies =
      ["❌ <b>Insufficient funds in your wallet. Please fund your wallet before starting.</b>"] ∧
    (handle env s (.text "🚀 Start Volume Bot")).session = s ∧
    (handle env s (.text "🚀 Start Volume Bot")).swapCalls = [] ∧
    (handle env s (.text "🚀 Start Volume Bot")).threw = false := by
  have hh : handle env s (.text "🚀 Start Volume Bot") = startVolume env s := by
    simp [handle]
  rw [hh]
  unfold startVolume
  cases hl : s.wallets net with
  | nil => exact absurd hl hws
  | cons w0 ws => simp [hnet, htok, hl, hfail, unfunded, replyOnly]

/-- C6 amended, exercised on three wallets whose balance cannot be read. -/
theorem all_balances_fail_rejected_witness :
    (handle failingEnv (sampleSession sampleWallets (some moderateSpeed))
      (.text "🚀 Start Volume Bot")).swapCalls = [] :=
  (all_balances_fail_rejected failingEnv (sampleSession sampleWallets (some moderateSpeed))
    .Solana rfl (by decide) (by decide) (fun _ _ => rfl)).2.2.1

/-! ## The ready gate -/

theorem onBuyAmount_ready (env : Env) (s : Session) (text : String) :
    (onBuyAmount env s text).session.buySellReady = s.buySellReady := by
  unfold onBuyAmount
  simp only
  split <;> rfl

theorem buy_refused_when_not_ready (env : Env) (s : Session) (h : s.buySellReady = false) :
    (handle env s (.callback "buy_tokens")).answers = ["Please start the volume bot first."] ∧
    (handle env s (.callback "buy_tokens")).swapCalls = [] ∧
    (handle env s (.callback "buy_tokens")).session = s := by
  simp [handle, onCallbackQuery, buyTokens, h]

/-- C7 at its failing input: a configured session waiting for the buy amount
receives the default keyword.  The amount becomes 0.001, `step` is cleared and
the reply announces `You can now Buy or Dump tokens.`, yet `buySellReady` is
still false, and the Buy action that follows is refused with `Please start the
volume bot first.` without any swap call. -/
theorem buy_amount_leaves_gate_closed :
    (handle sampleEnv awaitingAmountSession (.text "Use Default (0.001)")).session.buyAmount =
      some (1 / 1000) ∧
    (handle sampleEnv awaitingAmountSession (.text "Use Default (0.001)")).session.step = none ∧
    (handle sampleEnv awaitingAmountSession (.text "Use Default (0.001)")).replies =
      ["Amount per buy transaction set to <b>n</b> SOL.\nYou can now Buy or Dump tokens."] ∧
    (handle sampleEnv awaitingAmountSession (.text "Use Default (0.001)")).session.buySellReady =
      false ∧
    (handle sampleEnv
      (handle sampleEnv awaitingAmountSession (.text "Use Default (0.001)")).session
      (.callback "buy_tokens")).answers = ["Please start the volume bot first."] ∧
    (handle sampleEnv
      (handle sampleEnv awaitingAmountSession (.text "Use Default (0.001)")).session
      (.callback "buy_tokens")).swapCalls = [] := by
  have hh : handle sampleEnv awaitingAmountSession (.text "Use Default (0.001)") =
      onBuyAmount sampleEnv awaitingAmountSession "Use Default (0.001)" := by
    simp [handle, onText, awaitingAmountSession, sampleSession, Session.fresh]
  rw [hh]
  have hr := onBuyAmount_ready sampleEnv awaitingAmountSession "Use Default (0.001)"
  have hb := buy_refused_when_not_ready sampleEnv
    (onBuyAmount sampleEnv awaitingAmountSession "Use Default (0.001)").session (hr.trans rfl)
  refine ⟨by simp [onBuyAmount, replyOnly], by simp [onBuyAmount, replyOnly], ?_, hr, hb.1, hb.2.1⟩
  simp [onBuyAmount, replyOnly, sampleEnv, currencyName, awaitingAmountSession, sampleSession]

theorem startVolume_ready (env : Env) (s : Session) :
    (startVolume env s).session.buySellReady = s.buySellReady := by
  unfold startVolume replyOnly
  repeat' first
    | split
    | (dsimp only; split)
  all_goals rfl

theorem onText_ready (env : Env) (s : Session) (text : String) :
    (onText env s text).session.buySellReady = s.buySellReady := by
  unfold onText onSlippage onBuyAmount onWalletCount onWalletNetwork onTokenAddress backToMain
    replyOnly
  repeat' first
    | split
    | (dsimp only; split)
  all_goals rfl

theorem onCallbackQuery_ready (env : Env) (s : Session) (data : String)
    (h : s.buySellReady = false) :
    (onCallbackQuery env s data).session.buySellReady = false := by
  unfold onCallbackQuery buyTokens dumpTokens
  simp [h]
  repeat' split
  all_goals exact h

theorem handle_ready (env : Env) (s : Session) (u : Update) (h : s.buySellReady = false) :
    (handle env s u).session.buySellReady = false := by
  cases u with
  | startCommand => exact h
  | entertokenCommand => exact h
  | text t =>
    simp only [handle]
    split_ifs
    · exact h
    · exact h
    · exact h
    · exact h
    · rw [startVolume_ready]; exact h
    · rw [onText_ready]; exact h
  | callback data =>
    simp only [handle]
    split_ifs
    · exact h
    · exact h
    · exact onCallbackQuery_ready env s data h

/-- No handler assigns `true` to `buySellReady` (it is read at lines 813 and 852
and written at line 903 only, with `false`), so the flag is false in every
session reachable from a fresh one. -/
theorem reachable_not_ready (s : Session) (h : Reachable s) : s.buySellReady = false := by
  induction h with
  | fresh => rfl
  | step env u _ ih => exact handle_ready env _ u ih

/-- The handlers themselves do not tie the ready flag to the configuration.
From a state with the flag set and wallets on Solana only (a state that no
sequence of updates reaches), a token that resolves to Ethereum moves the trade
network to a network without wallets and leaves the flag set. -/
theorem token_change_keeps_ready :
    (handle ethereumEnv
      { sampleSession sampleWallets (some slowSpeed) with step := some .await_token_address }
      (.text "0xdAC17F958D2ee523a2206206994597C13D831ec7")).session.buySellReady = true ∧
    (handle ethereumEnv
      { sampleSession sampleWallets (some slowSpeed) with step := some .await_token_address }
      (.text "0xdAC17F958D2ee523a2206206994597C13D831ec7")).session.tradeNetwork =
      some .Ethereum ∧
    cycleWallets (handle ethereumEnv
      { sampleSession sampleWallets (some slowSpeed) with step := some .await_token_address }
      (.text "0xdAC17F958D2ee523a2206206994597C13D831ec7")).session = [] := by
  refine ⟨by decide, by decide, by decide⟩

/-! ## End of a cycle -/

/-- What an admitted sell cycle leaves when `activeVolume` holds an object: the
flag of the trade network false and the ready flag false. -/
theorem dump_end_with_activeVolume (env : Env) (s : Session)
    (av : Option Network → Option Bool) (hready : s.buySellReady = true)
    (hav : s.activeVolume = some av) :
    (handle env s (.callback "dump_tokens")).session.activeVolume =
      some (setKey av s.tradeNetwork false) ∧
    orEmpty (handle env s (.callback "dump_tokens")).session.activeVolume s.tradeNetwork =
      some false ∧
    (handle env s (.callback "dump_tokens")).session.buySellReady = false ∧
    (handle env s (.callback "dump_tokens")).threw = false := by
  simp [handle, onCallbackQuery, dumpTokens, hready, hav, orEmpty, setKey]

/-- What an admitted sell cycle leaves when `activeVolume` was never assigned:
the assignment of line 902 throws, the ready flag stays true. -/
theorem dump_end_without_activeVolume (env : Env) (s : Session)
    (hready : s.buySellReady = true) (hav : s.activeVolume = none) :
    (handle env s (.callback "dump_tokens")).threw = true ∧
    (handle env s (.callback "dump_tokens")).session.activeVolume = none ∧
    (handle env s (.callback "dump_tokens")).session.buySellReady = true ∧
    (handle env s (.callback "dump_tokens")).answers = [] := by
  simp [handle, onCallbackQuery, dumpTokens, hready, hav]

/-- An admitted buy cycle leaves `activeVolume` and the ready flag as they were. -/
theorem buy_end_keeps_flags (env : Env) (s : Session) :
    (handle env s (.callback "buy_tokens")).session.activeVolume = s.activeVolume ∧
    (handle env s (.callback "buy_tokens")).session.buySellReady = s.buySellReady ∧
    (handle env s (.callback "buy_tokens")).threw = false := by
  simp only [handle, onCallbackQuery, buyTokens]
  simp only [String.reduceEq, if_false, if_true]
  split <;> simp

/-- In every session reachable from a fresh one the guards of lines 813 and 852
refuse the Buy and the Dump action: the answer is `Please start the volume bot
first.`, no swap call is made and the session is left as it was, so neither
loop is entered. -/
theorem reachable_cycles_refused (env : Env) (s : Session) (h : Reachable s) :
    ((handle env s (.callback "buy_tokens")).answers = ["Please start the volume bot first."] ∧
     (handle env s (.callback "buy_tokens")).swapCalls = [] ∧
     (handle env s (.callback "buy_tokens")).session = s) ∧
    ((handle env s (.callback "dump_tokens")).answers = ["Please start the volume bot first."] ∧
     (handle env s (.callback "dump_tokens")).swapCalls = [] ∧
     (handle env s (.callback "dump_tokens")).session = s) := by
  have hr := reachable_not_ready s h
  exact ⟨buy_refused_when_not_ready env s hr,
    by simp [handle, onCallbackQuery, dumpTokens, hr]⟩

/-! ## Network classifier: the two address shapes -/

theorem isHex_iff (c : Char) :
    isHex c = true ↔
      (c.isDigit = true ∨ ('a' ≤ c ∧ c ≤ 'f') ∨ ('A' ≤ c ∧ c ≤ 'F')) := by
  simp only [isHex, Char.isDigit, Bool.or_eq_true, Bool.and_eq_true, decide_eq_true_eq,
    char_le_iff, ge_iff_le, uint32_le_iff]
  have h48 : (48 : UInt32).toNat = 48 := rfl
  have h57 : (57 : UInt32).toNat = 57 := rfl
  have hv : c.val.toNat = c.toNat := rfl
  simp only [h48, h57, hv, Char.reduceToNat]
  omega

theorem matchesSolana_iff (address : String) :
    matchesSolana address = true ↔
      (32 ≤ address.length ∧ address.length ≤ 44 ∧ ∀ c ∈ address.data,
        (c.isDigit = true ∨ c.isAlpha = true) ∧ c ≠ '0' ∧ c ≠ 'O' ∧ c ≠ 'I' ∧ c ≠ 'l') := by
  simp only [matchesSolana, Bool.and_eq_true, decide_eq_true_eq, List.all_eq_true, isBase58_iff,
    String.length]
  tauto

theorem matchesEvm_iff (address : String) :
    matchesEvm address = true ↔
      ∃ rest : List Char, address.data = '0' :: 'x' :: rest ∧ rest.length = 40 ∧
        ∀ c ∈ rest, (c.isDigit = true ∨ ('a' ≤ c ∧ c ≤ 'f') ∨ ('A' ≤ c ∧ c ≤ 'F')) := by
  unfold matchesEvm
  split
  · rename_i rest heq
    simp only [Bool.and_eq_true, decide_eq_true_eq, List.all_eq_true, isHex_iff]
    constructor
    · rintro ⟨h1, h2⟩
      exact ⟨rest, heq, h2, h1⟩
    · rintro ⟨rest', h0, h2, h1⟩
      rw [heq] at h0
      simp only [List.cons.injEq, true_and] at h0
      subst h0
      exact ⟨h1, h2⟩
  · rename_i hne
    simp only [Bool.false_eq_true, false_iff, not_exists, not_and]
    intro rest h0
    exact absurd h0 (hne rest)

theorem evm_not_solana (address : String) (h : matchesEvm address = true) :
    matchesSolana address = false := by
  obtain ⟨rest, h0, -, -⟩ := (matchesEvm_iff address).1 h
  cases hs : matchesSolana address with
  | false => rfl
  | true =>
    obtain ⟨-, -, hall⟩ := (matchesSolana_iff address).1 hs
    exact absurd rfl (hall '0' (by rw [h0]; simp)).2.1

/-- C11: an address made of `0x` followed by exactly 40 hexadecimal digits is
classified as BSC when a session is passed whose trade network is BSC, and as
Ethereum for every other session and for no session; so never as Solana and
never as unresolved. -/
theorem evm_address_network (address : String) (session : Option Session) (rest : List Char)
    (hshape : address.data = '0' :: 'x' :: rest) (hlen : rest.length = 40)
    (hhex : ∀ c ∈ rest, (c.isDigit = true ∨ ('a' ≤ c ∧ c ≤ 'f') ∨ ('A' ≤ c ∧ c ≤ 'F'))) :
    getNetworkFromAddress address session =
      (if (∃ s, session = some s ∧ s.tradeNetwork = some .BSC) then some .BSC
       else some .Ethereum) ∧
    getNetworkFromAddress address session ≠ some .Solana ∧
    getNetworkFromAddress address session ≠ none := by
  have he : matchesEvm address = true := (matchesEvm_iff address).2 ⟨rest, hshape, hlen, hhex⟩
  have hs := evm_not_solana address he
  have key : getNetworkFromAddress address session =
      (if (∃ s, session = some s ∧ s.tradeNetwork = some .BSC) then some .BSC
       else some .Ethereum) := by
    unfold getNetworkFromAddress
    cases session with
    | none => simp [hs, he]
    | some s =>
      by_cases hb : s.tradeNetwork = some .BSC
      · simp [hs, he, hb]
      · simp [hs, he, hb]
  refine ⟨key, ?_, ?_⟩
  · rw [key]; split_ifs <;> simp
  · rw [key]; split_ifs <;> simp

/-- C11 exercised on the PancakeSwap router address: BSC under a BSC session. -/
theorem evm_address_network_witness :
    getNetworkFromAddress "0x10ED43C718714eb63d5aA57B78B54704E256024E"
      (some { Session.fresh with tradeNetwork := some .BSC }) =
      (if (∃ s, some { Session.fresh with tradeNetwork := some Network.BSC } = some s ∧
          s.tradeNetwork = some .BSC) then some .BSC else some .Ethereum) :=
  (evm_address_network "0x10ED43C718714eb63d5aA57B78B54704E256024E"
    (some { Session.fresh with tradeNetwork := some .BSC })
    "10ED43C718714eb63d5aA57B78B54704E256024E".data rfl (by decide) (by decide)).1

/-- C12: for every address and every second argument, the classifier returns
`null` exactly when the address is neither a string of 32 to 44 base58
characters nor `0x` followed by 40 hexadecimal digits; every other result is
the network of the shape that matched. -/
theorem unresolved_iff_no_shape (address : String) (session : Option Session) :
    getNetworkFromAddress address session = none ↔
      (¬ (32 ≤ address.length ∧ address.length ≤ 44 ∧ ∀ c ∈ address.data,
          (c.isDigit = true ∨ c.isAlpha = true) ∧ c ≠ '0' ∧ c ≠ 'O' ∧ c ≠ 'I' ∧ c ≠ 'l') ∧
       ¬ (∃ rest : List Char, address.data = '0' :: 'x' :: rest ∧ rest.length = 40 ∧
          ∀ c ∈ rest, (c.isDigit = true ∨ ('a' ≤ c ∧ c ≤ 'f') ∨ ('A' ≤ c ∧ c ≤ 'F')))) := by
  rw [← matchesSolana_iff, ← matchesEvm_iff]
  unfold getNetworkFromAddress
  cases hs : matchesSolana address <;> cases he : matchesEvm address <;> simp
  split_ifs <;> simp

/-! ## Text inputs of the conversation -/

theorem handle_text_of_not_trigger (env : Env) (s : Session) (t : String)
    (ht : t ∉ hearsTriggers) : handle env s (.text t) = onText env s t := by
  simp only [hearsTriggers, List.mem_cons, List.mem_singleton, List.not_mem_nil, or_false,
    not_or] at ht
  obtain ⟨h1, h2, h3, h4, h5⟩ := ht
  simp [handle, h1, h2, h3, h4, h5]

theorem onText_branch (env : Env) (s : Session) (t : String) (ht : t ∉ hearsTriggers)
    (hgo : ¬ (t = "Go Back" ∧ s.lastStep.isSome = true)) :
    onText env s t =
      match s.step with
      | some .await_slippage => onSlippage env s t
      | some .await_buy_amount => onBuyAmount env s t
      | some .await_wallet_count => onWalletCount s t
      | some .await_wallet_network => onWalletNetwork env s t
      | some .await_token_address => onTokenAddress env s t
      | none =>
        replyOnly { s with lastStep := s.step, step := none }
          "Sorry, I did not understand that. Please use the menu below." := by
  have hb : t ≠ "Back to Main" := by
    intro h
    exact ht (by simp [hearsTriggers, h])
  unfold onText
  rw [if_neg hb, if_neg hgo]

/-- C13 as stated fails: in the wallet-count step the text `5abc`, which is
not an integer, is accepted, with `walletCount` 5 and the step advanced; so are
`3.7` as 3 and `0x10` as 16. -/
theorem wallet_count_prefix_counterexample :
    isIntegerText "5abc" = false ∧
    (handle sampleEnv { Session.fresh with step := some .await_wallet_count }
      (.text "5abc")).session.step = some .await_wallet_network ∧
    (handle sampleEnv { Session.fresh with step := some .await_wallet_count }
      (.text "5abc")).session.walletCount = some 5 ∧
    (handle sampleEnv { Session.fresh with step := some .await_wallet_count }
      (.text "3.7")).session.walletCount = some 3 ∧
    (handle sampleEnv { Session.fresh with step := some .await_wallet_count }
      (.text "0x10")).session.walletCount = some 16 := by
  decide

/-- C13 amended: in the wallet-count step a text that is not a menu or
navigation command is accepted exactly when `parseInt` of the text, the number
read from its longest leading integer after optional white space and sign, lies
in 1..20.  Then `walletCount` is that number, `lastStep` is the wallet-count
step and `step` is the wallet-network step; in every other case the session is
left as it was (so `step` stays) and the range message is sent. -/
theorem wallet_count_input (env : Env) (s : Session) (t : String)
    (hstep : s.step = some .await_wallet_count) (ht : t ∉ hearsTriggers)
    (hgo : ¬ (t = "Go Back" ∧ s.lastStep.isSome = true)) :
    (∀ c : Int, parseInt t = some c → 1 ≤ c → c ≤ 20 →
      (handle env s (.text t)).session =
        { s with walletCount := some c.toNat, lastStep := some .await_wallet_count,
                 step := some .await_wallet_network } ∧
      (handle env s (.text t)).replies = ["Select the network for wallet generation:"]) ∧
    ((¬ ∃ c : Int, parseInt t = some c ∧ 1 ≤ c ∧ c ≤ 20) →
      (handle env s (.text t)).session = s ∧
      (handle env s (.text t)).replies = ["Please enter a valid number between 1 and 20."]) := by
  rw [handle_text_of_not_trigger env s t ht, onText_branch env s t ht hgo, hstep]
  simp only
  constructor
  · intro c hc h1 h20
    have hr : ¬ (c < 1 ∨ c > 20) := by omega
    simp [onWalletCount, hc, hr, replyOnly, hstep]
  · intro hno
    unfold onWalletCount
    cases hc : parseInt t with
    | none => simp [replyOnly]
    | some c =>
      have hr : c < 1 ∨ c > 20 := by
        by_contra hcon
        exact hno ⟨c, hc, by omega, by omega⟩
      simp [hr, replyOnly]

/-- C13 amended, exercised: `7` is accepted, `25` is rejected. -/
theorem wallet_count_input_witness :
    (handle sampleEnv { Session.fresh with step := some .await_wallet_count }
      (.text "7")).session =
      { { Session.fresh with step := some Step.await_wallet_count } with
        walletCount := some (7 : Int).toNat, lastStep := some .await_wallet_count,
        step := some .await_wallet_network } ∧
    (handle sampleEnv { Session.fresh with step := some .await_wallet_count }
      (.text "25")).session = { Session.fresh with step := some .await_wallet_count } :=
  ⟨((wallet_count_input sampleEnv { Session.fresh with step := some .await_wallet_count } "7"
      rfl (by decide) (by decide)).1 7 (by decide) (by decide) (by decide)).1,
   ((wallet_count_input sampleEnv { Session.fresh with step := some .await_wallet_count } "25"
      rfl (by decide) (by decide)).2 (by
        rintro ⟨c, hc, h1, h20⟩
        have h25 : parseInt "25" = some 25 := by decide
        rw [h25] at hc
        simp only [Option.some.injEq] at hc
        omega)).1⟩

/-! ## Rounding to a double -/

theorem log2Steps_spec : ∀ (fuel n : Nat), n ≤ fuel → 1 ≤ n →
    2 ^ log2Steps fuel n ≤ n ∧ n < 2 ^ (log2Steps fuel n + 1) := by
  intro fuel
  induction fuel with
  | zero => intro n h hn; omega
  | succ fuel ih =>
    intro n h hn
    unfold log2Steps
    split_ifs with h2
    · simp; omega
    · obtain ⟨i1, i2⟩ := ih (n / 2) (by omega) (by omega)
      rw [pow_succ, pow_succ]
      rw [pow_succ] at i2
      omega

theorem floorLog2_spec (n : Nat) (hn : 1 ≤ n) :
    2 ^ floorLog2 n ≤ n ∧ n < 2 ^ (floorLog2 n + 1) :=
  log2Steps_spec n n (Nat.le_refl n) hn

theorem roundHalfEven_le (n d B : Nat) (h : n < B * d) : roundHalfEven n d ≤ B := by
  have hd : 0 < d := by
    rcases Nat.eq_zero_or_pos d with h0 | h0
    · rw [h0] at h; simp at h
    · exact h0
  have hq : n / d < B := (Nat.div_lt_iff_lt_mul hd).2 h
  unfold roundHalfEven
  simp only
  split_ifs <;> omega

theorem significand_bound (num den nk : Nat) (hnum : 1 ≤ num) (hden : 1 ≤ den)
    (hk : binade num den - 52 ≤ -(nk : Int)) : num * 2 ^ nk < 2 ^ 53 * den := by
  obtain ⟨-, ha⟩ := floorLog2_spec num hnum
  obtain ⟨hb, -⟩ := floorLog2_spec den hden
  have hp : ∀ n : Nat, 0 < 2 ^ n := fun n => Nat.pos_of_ne_zero (by simp)
  have reach : floorLog2 num + 1 + nk ≤ floorLog2 den + 53 → num * 2 ^ nk < 2 ^ 53 * den := by
    intro hle
    calc num * 2 ^ nk < 2 ^ (floorLog2 num + 1) * 2 ^ nk :=
          Nat.mul_lt_mul_of_pos_right ha (hp nk)
      _ = 2 ^ (floorLog2 num + 1 + nk) := (pow_add 2 _ _).symm
      _ ≤ 2 ^ (floorLog2 den + 53) := Nat.pow_le_pow_right (by decide) hle
      _ = 2 ^ 53 * 2 ^ floorLog2 den := by rw [pow_add, Nat.mul_comm]
      _ ≤ 2 ^ 53 * den := Nat.mul_le_mul_left _ hb
  unfold binade at hk
  simp only at hk
  by_cases hpos : (0 : Int) ≤ (floorLog2 num : Int) - (floorLog2 den : Int)
  · simp only [hpos, if_true] at hk
    split_ifs at hk with hr
    · exact reach (by omega)
    · simp only [decide_eq_true_eq, not_le] at hr
      generalize hE : ((floorLog2 num : Int) - (floorLog2 den : Int)).toNat = E at hr
      have hle : E + nk ≤ 53 := by omega
      calc num * 2 ^ nk < den * 2 ^ E * 2 ^ nk := Nat.mul_lt_mul_of_pos_right hr (hp nk)
        _ = den * 2 ^ (E + nk) := by rw [Nat.mul_assoc, ← pow_add]
        _ ≤ den * 2 ^ 53 := Nat.mul_le_mul_left _ (Nat.pow_le_pow_right (by decide) hle)
        _ = 2 ^ 53 * den := Nat.mul_comm _ _
  · simp only [hpos, if_false] at hk
    split_ifs at hk with hr
    · exact reach (by omega)
    · simp only [decide_eq_true_eq, not_le] at hr
      generalize hE : (-((floorLog2 num : Int) - (floorLog2 den : Int))).toNat = E at hr
      have hle : nk ≤ 53 + E := by omega
      calc num * 2 ^ nk ≤ num * 2 ^ (53 + E) :=
            Nat.mul_le_mul_left _ (Nat.pow_le_pow_right (by decide) hle)
        _ = 2 ^ 53 * (num * 2 ^ E) := by rw [pow_add]; ring
        _ < 2 ^ 53 * den := Nat.mul_lt_mul_of_pos_left hr (hp 53)

theorem pow2Scale_gap (num den M : Nat) (k : Int) (hden : 1 ≤ den)
    (h : toDoubleParts num den = some (M, k)) (hlt : pow2Scale M k < jsTenth) :
    pow2Scale M k < 1 / 10 := by
  unfold toDoubleParts at h
  by_cases hnum : num = 0
  · simp only [hnum, if_true, Option.some.injEq, Prod.mk.injEq] at h
    obtain ⟨rfl, rfl⟩ := h
    simp [pow2Scale]
  · simp only [hnum, if_false] at h
    split_ifs at h
    simp only [Option.some.injEq, Prod.mk.injEq] at h
    obtain ⟨hM, hk⟩ := h
    by_cases hk0 : 0 ≤ k
    · have hv : pow2Scale M k = ((M * 2 ^ k.toNat : Nat) : ℚ) := by
        simp [pow2Scale, hk0]
      rw [hv] at hlt ⊢
      have h1 : ((M * 2 ^ k.toNat : Nat) : ℚ) < 1 := lt_trans hlt (by norm_num [jsTenth])
      have h0 : M * 2 ^ k.toNat = 0 := by
        have : M * 2 ^ k.toNat < 1 := by exact_mod_cast h1
        omega
      rw [h0]
      norm_num
    · have hv : pow2Scale M k = (M : ℚ) / (2 : ℚ) ^ (-k).toNat := by
        simp [pow2Scale, hk0]
      generalize hn : (-k).toNat = n at hv
      have hp : (0 : ℚ) < (2 : ℚ) ^ n := by positivity
      by_cases hk56 : -56 ≤ k
      · have hn56 : n ≤ 56 := by omega
        have hsplit : (2 : ℚ) ^ 56 = (2 : ℚ) ^ n * (2 : ℚ) ^ (56 - n) := by
          rw [← pow_add]
          congr 1
          omega
        have hv2 : pow2Scale M k = ((M * 2 ^ (56 - n) : Nat) : ℚ) / (2 : ℚ) ^ 56 := by
          rw [hv, hsplit]
          push_cast
          field_simp
          ring
        rw [hv2] at hlt ⊢
        have hN : ((M * 2 ^ (56 - n) : Nat) : ℚ) < 7205759403792794 := by
          have := (div_lt_iff₀ (by positivity : (0 : ℚ) < (2 : ℚ) ^ 56)).1 hlt
          have hc : jsTenth * (2 : ℚ) ^ 56 = 7205759403792794 := by norm_num [jsTenth]
          rwa [hc] at this
        have hN2 : M * 2 ^ (56 - n) ≤ 7205759403792793 := by
          have : M * 2 ^ (56 - n) < 7205759403792794 := by exact_mod_cast hN
          omega
        have hN3 : ((M * 2 ^ (56 - n) : Nat) : ℚ) ≤ 7205759403792793 := by exact_mod_cast hN2
        calc ((M * 2 ^ (56 - n) : Nat) : ℚ) / (2 : ℚ) ^ 56
            ≤ 7205759403792793 / (2 : ℚ) ^ 56 := by gcongr
          _ < 1 / 10 := by norm_num
      · have hn57 : 57 ≤ n := by omega
        have hkb : binade num den - 52 ≤ -(n : Int) := by
          have : binade num den - 52 ≤ k := by
            rw [← hk]
            exact le_max_left _ _
          omega
        have hMle : M ≤ 2 ^ 53 := by
          rw [← hM, hk]
          unfold doubleSignificand
          rw [if_neg hk0, hn]
          exact roundHalfEven_le _ _ _ (significand_bound num den n (by omega) hden hkb)
        have hMq : (M : ℚ) ≤ (2 : ℚ) ^ 53 := by exact_mod_cast hMle
        have hpow : (2 : ℚ) ^ 57 ≤ (2 : ℚ) ^ n := pow_le_pow_right₀ (by norm_num) hn57
        rw [hv]
        calc (M : ℚ) / (2 : ℚ) ^ n ≤ (2 : ℚ) ^ 53 / (2 : ℚ) ^ 57 := by gcongr
          _ < 1 / 10 := by norm_num

theorem pow2Scale_nonneg (M : Nat) (k : Int) : 0 ≤ pow2Scale M k := by
  unfold pow2Scale
  split_ifs <;> positivity

theorem toDouble_gap (num den : Nat) (hden : 1 ≤ den) (w : ℚ)
    (h : toDouble num den = .fin w) : 0 ≤ w ∧ (w < jsTenth → w < 1 / 10) := by
  unfold toDouble at h
  cases hp : toDoubleParts num den with
  | none => rw [hp] at h; simp at h
  | some p =>
    obtain ⟨M, k⟩ := p
    rw [hp] at h
    simp only [JsNum.fin.injEq] at h
    subst h
    exact ⟨pow2Scale_nonneg M k, pow2Scale_gap num den M k hden hp⟩

theorem decimalToDouble_gap (m : Nat) (e : Int) (w : ℚ)
    (h : decimalToDouble m e = .fin w) : 0 ≤ w ∧ (w < jsTenth → w < 1 / 10) := by
  unfold decimalToDouble at h
  split_ifs at h
  · exact toDouble_gap _ 1 (Nat.le_refl 1) w h
  · exact toDouble_gap _ _ (Nat.one_le_two_pow.trans (Nat.pow_le_pow_left (by decide) _)) w h

/-- No value that `parseFloat` returns lies between 1/10 and the double of `0.1`. -/
theorem parseFloat_gap (t : String) (v : ℚ) (h : parseFloat t = .fin v)
    (hlt : v < jsTenth) : v < 1 / 10 := by
  have key : ∀ (b : Bool) (x : JsNum),
      (∀ w, x = .fin w → 0 ≤ w ∧ (w < jsTenth → w < 1 / 10)) →
      withSign b x = .fin v → v < 1 / 10 := by
    intro b x hx hv
    cases x with
    | nan => simp [withSign] at hv
    | inf n => simp [withSign] at hv
    | fin w =>
      obtain ⟨h0, hg⟩ := hx w rfl
      simp only [withSign, JsNum.fin.injEq] at hv
      subst hv
      cases b with
      | true =>
        have : (0 : ℚ) < 1 / 10 := by norm_num
        simp only [if_true]
        linarith
      | false =>
        simp only [Bool.false_eq_true, if_false] at hlt ⊢
        exact hg hlt
  unfold parseFloat at h
  simp only at h
  split at h
  · simp at h
  · split_ifs at h with hnan
    exact key _ _ (fun w hw => decimalToDouble_gap _ _ w hw) h

theorem parseFloat_1_5 : parseFloat "1.5" = .fin (3 / 2) := by
  have h1 : parseFloat "1.5" = withSign false (toDouble 15 10) := by rfl
  have h2 : toDoubleParts 15 10 = some (6755399441055744, -52) := by decide
  rw [h1, toDouble, h2]
  simp only [withSign, pow2Scale, Bool.false_eq_true, if_false]
  rw [if_neg (by decide), show (-(-52 : Int)).toNat = 52 from rfl]
  norm_num

theorem parseFloat_0_05 :
    parseFloat "0.05" = .fin (3602879701896397 / 72057594037927936) := by
  have h1 : parseFloat "0.05" = withSign false (toDouble 5 100) := by rfl
  have h2 : toDoubleParts 5 100 = some (7205759403792794, -57) := by decide
  rw [h1, toDouble, h2]
  simp only [withSign, pow2Scale, Bool.false_eq_true, if_false]
  rw [if_neg (by decide), show (-(-57 : Int)).toNat = 57 from rfl]
  norm_num

/-- The bound of line 642 is the number that the text `0.1` parses to. -/
theorem parseFloat_tenth : parseFloat "0.1" = .fin jsTenth := by
  have h1 : parseFloat "0.1" = withSign false (toDouble 1 10) := by rfl
  have h2 : toDoubleParts 1 10 = some (7205759403792794, -56) := by decide
  rw [h1, toDouble, h2]
  simp only [withSign, pow2Scale, jsTenth, Bool.false_eq_true, if_false]
  rw [if_neg (by decide), show (-(-56 : Int)).toNat = 56 from rfl]
  norm_num

/-- The bound of line 665 is the number that the text `0.0001` parses to. -/
theorem parseFloat_tenThousandth : parseFloat "0.0001" = .fin jsTenThousandth := by
  have h1 : parseFloat "0.0001" = withSign false (toDouble 1 10000) := by rfl
  have h2 : toDoubleParts 1 10000 = some (7378697629483821, -66) := by decide
  rw [h1, toDouble, h2]
  simp only [withSign, pow2Scale, jsTenThousandth, Bool.false_eq_true, if_false]
  rw [if_neg (by decide), show (-(-66 : Int)).toNat = 66 from rfl]
  norm_num

theorem parseFloat_below_tenth : parseFloat "0.09999999999999999999" = .fin jsTenth := by
  have h1 : parseFloat "0.09999999999999999999" =
      withSign false (toDouble 9999999999999999999 100000000000000000000) := by rfl
  have h2 : toDoubleParts 9999999999999999999 100000000000000000000 =
      some (7205759403792794, -56) := by decide
  rw [h1, toDouble, h2]
  simp only [withSign, pow2Scale, jsTenth, Bool.false_eq_true, if_false]
  rw [if_neg (by decide), show (-(-56 : Int)).toNat = 56 from rfl]
  norm_num

theorem parseFloat_above_fifty : parseFloat "50.000000000000000001" = .fin 50 := by
  have h1 : parseFloat "50.000000000000000001" =
      withSign false (toDouble 50000000000000000001 1000000000000000000) := by rfl
  have h2 : toDoubleParts 50000000000000000001 1000000000000000000 =
      some (7036874417766400, -47) := by decide
  rw [h1, toDouble, h2]
  simp only [withSign, pow2Scale, Bool.false_eq_true, if_false]
  rw [if_neg (by decide), show (-(-47 : Int)).toNat = 47 from rfl]
  norm_num

/-- C14: in the slippage step, for a text that is not a menu or navigation
command: the default keyword sets `slippage` to 1; any other text whose
`parseFloat` value `v` (the double nearest to its leading decimal literal)
satisfies 0.1 ≤ v ≤ 50 sets `slippage` to `v`; in both cases `step` becomes the
buy-amount step and nothing else changes.  A text whose value is below 0.1 or
above 50, or that has no finite numeric value, is rejected: the session is left
as it was, in the slippage step.  The code compares with the double of the
literal `0.1`; no double lies between 1/10 and it, so the bound is 1/10. -/
theorem slippage_input (env : Env) (s : Session) (t : String)
    (hstep : s.step = some .await_slippage) (ht : t ∉ hearsTriggers)
    (hgo : ¬ (t = "Go Back" ∧ s.lastStep.isSome = true)) :
    (t = "Use Default (1%)" →
      (handle env s (.text t)).session =
        { s with slippage := some 1, step := some .await_buy_amount }) ∧
    (t ≠ "Use Default (1%)" → ∀ v : ℚ, parseFloat t = .fin v →
      ((1 / 10 ≤ v ∧ v ≤ 50) →
        (handle env s (.text t)).session =
          { s with slippage := some v, step := some .await_buy_amount }) ∧
      (¬ (1 / 10 ≤ v ∧ v ≤ 50) →
        (handle env s (.text t)).session = s ∧
        (handle env s (.text t)).session.step = some .await_slippage ∧
        (handle env s (.text t)).replies =
          ["Please enter a valid slippage between 0.1 and 50."])) ∧
    (t ≠ "Use Default (1%)" → (∀ v : ℚ, parseFloat t ≠ .fin v) →
      (handle env s (.text t)).session = s ∧
      (handle env s (.text t)).replies =
        ["Please enter a valid slippage between 0.1 and 50."]) := by
  rw [handle_text_of_not_trigger env s t ht, onText_branch env s t ht hgo, hstep]
  simp only
  refine ⟨fun hd => ?_, fun hd v hv => ⟨fun hin => ?_, fun hout => ?_⟩, fun hd hnan => ?_⟩
  · simp [onSlippage, hd, replyOnly]
  · have hr : ¬ (v < jsTenth ∨ v > 50) := by
      rintro (h | h)
      · exact absurd hin.1 (not_le.mpr (parseFloat_gap t v hv h))
      · exact absurd hin.2 (not_le.mpr h)
    simp only [onSlippage, hd, if_false, hv, inRange, hr, replyOnly]
  · have hr : v < jsTenth ∨ v > 50 := by
      by_contra hcon
      have h1 : ¬ v < jsTenth := fun h => hcon (Or.inl h)
      have h2 : ¬ v > 50 := fun h => hcon (Or.inr h)
      have h3 : (1 : ℚ) / 10 ≤ jsTenth := by norm_num [jsTenth]
      exact hout ⟨h3.trans (not_lt.mp h1), not_lt.mp h2⟩
    simp only [onSlippage, hd, if_false, hv, inRange, hr, if_true, replyOnly, hstep, and_self]
  · cases hp : parseFloat t with
    | nan => simp only [onSlippage, hd, if_false, hp, inRange, replyOnly, and_self]
    | inf b => simp only [onSlippage, hd, if_false, hp, inRange, replyOnly, and_self]
    | fin v => exact absurd hp (hnan v)

/-- C14 exercised: `1.5` is accepted with slippage 1.5 and the buy-amount step;
`0.05` is rejected and the session stays in the slippage step; the texts
`0.09999999999999999999` and `50.000000000000000001`, which round to the doubles
0.1 and 50, are accepted and stored as those doubles. -/
theorem slippage_input_witness :
    (handle sampleEnv { Session.fresh with step := some .await_slippage }
      (.text "1.5")).session =
      { { Session.fresh with step := some Step.await_slippage } with
        slippage := some (3 / 2), step := some .await_buy_amount } ∧
    (handle sampleEnv { Session.fresh with step := some .await_slippage }
      (.text "0.05")).session = { Session.fresh with step := some .await_slippage } ∧
    (handle sampleEnv { Session.fresh with step := some .await_slippage }
      (.text "0.09999999999999999999")).session =
      { { Session.fresh with step := some Step.await_slippage } with
        slippage := some (3602879701896397 / 36028797018963968),
        step := some .await_buy_amount } ∧
    (handle sampleEnv { Session.fresh with step := some .await_slippage }
      (.text "50.000000000000000001")).session =
      { { Session.fresh with step := some Step.await_slippage } with
        slippage := some 50, step := some .await_buy_amount } :=
  ⟨((slippage_input sampleEnv { Session.fresh with step := some .await_slippage } "1.5"
      rfl (by decide) (by decide)).2.1 (by decide) (3 / 2) parseFloat_1_5).1
      (by norm_num),
   (((slippage_input sampleEnv { Session.fresh with step := some .await_slippage } "0.05"
      rfl (by decide) (by decide)).2.1 (by decide) _ parseFloat_0_05).2
      (by norm_num)).1,
   ((slippage_input sampleEnv { Session.fresh with step := some .await_slippage }
      "0.09999999999999999999" rfl (by decide) (by decide)).2.1 (by decide) _
      parseFloat_below_tenth).1 (by norm_num [jsTenth]),
   ((slippage_input sampleEnv { Session.fresh with step := some .await_slippage }
      "50.000000000000000001" rfl (by decide) (by decide)).2.1 (by decide) _
      parseFloat_above_fifty).1 (by norm_num)⟩

/-! ## Back to Main and Go Back -/

theorem parseFloat_go_back : parseFloat "Go Back" = .nan := by
  simp [parseFloat, takeSign, List.span, List.span.loop, isJsSpace, isDecDigit]

theorem goBack_without_lastStep (env : Env) (s : Session) (hl : s.lastStep = none) :
    (handle env s (.text "Go Back")).replies ≠ ["Returning to previous step..."] ∧
    ((handle env s (.text "Go Back")).session.step = s.step ∨
     (handle env s (.text "Go Back")).session.step = none) := by
  have hgo : ¬ ("Go Back" = "Go Back" ∧ s.lastStep.isSome = true) := by simp [hl]
  rw [handle_text_of_not_trigger env s "Go Back" (by decide),
    onText_branch env s "Go Back" (by decide) hgo]
  have hi : parseInt "Go Back" = none := by decide
  have hn : networkOfText "Go Back" = none := by decide
  cases hs : s.step with
  | none => simp [replyOnly]
  | some st =>
    cases st with
    | await_wallet_count => simp [onWalletCount, hi, replyOnly, hs]
    | await_wallet_network => simp [onWalletNetwork, hn, replyOnly, hs]
    | await_slippage => simp [onSlippage, parseFloat_go_back, inRange, replyOnly, hs]
    | await_buy_amount => simp [onBuyAmount, parseFloat_go_back, inRange, replyOnly, hs]
    | await_token_address =>
      simp only [onTokenAddress]
      cases env.fetchDex "Go Back" with
      | threw => simp [replyOnly, hs]
      | pairs ps =>
        cases ps with
        | nil => simp [replyOnly, hs]
        | cons pair rest =>
          simp only
          cases hd : detectNetwork pair with
          | mk net chain =>
            cases net with
            | none => simp [replyOnly, hs]
            | some n =>
              simp only [replyOnly]
              refine ⟨?_, Or.inr trivial⟩
              simp only [tokenMessage, ne_eq, List.cons.injEq, and_true]
              intro h
              have h2 := congrArg String.length h
              simp only [String.length_append] at h2
              have h3 : "Returning to previous step...".length = 29 := by decide
              have h4 : "\n<b>➡️ Next:</b> Click <b>Start Volume Bot</b> to begin.".length = 56 := by
                decide
              omega

/-- C15: from a session whose `step` is some step, `Back to Main` (typed, or
pressed as the inline button) stores that step in `lastStep`, clears `step` and
changes no other field, and a `Go Back` received next sets `step` to that step
again.  `Go Back` restores a step only when `lastStep` is set: with `lastStep`
unset it is handled as an ordinary text of the current step, the restoring
reply is not sent, and `step` ends as it was or cleared. -/
theorem back_to_main_go_back (env env2 : Env) (s : Session) (st : Step)
    (hstep : s.step = some st) :
    (handle env s (.text "Back to Main")).session = { s with lastStep := some st, step := none } ∧
    (handle env s (.callback "back_to_main_inline")).session =
      { s with lastStep := some st, step := none } ∧
    (handle env2 (handle env s (.text "Back to Main")).session (.text "Go Back")).session.step =
      some st ∧
    (handle env2 (handle env s (.text "Back to Main")).session (.text "Go Back")).session =
      { s with lastStep := some st, step := some st } ∧
    (∀ s0 : Session, s0.lastStep = none →
      (handle env s0 (.text "Go Back")).replies ≠ ["Returning to previous step..."] ∧
      ((handle env s0 (.text "Go Back")).session.step = s0.step ∨
       (handle env s0 (.text "Go Back")).session.step = none)) := by
  have h1 : (handle env s (.text "Back to Main")).session =
      { s with lastStep := some st, step := none } := by
    simp [handle, backToMain, hstep]
  have h2 : (handle env s (.callback "back_to_main_inline")).session =
      { s with lastStep := some st, step := none } := by
    simp [handle, backToMainInline, backToMain, hstep]
  have h3 : (handle env2 { s with lastStep := some st, step := none } (.text "Go Back")).session =
      { s with lastStep := some st, step := some st } := by
    rw [handle_text_of_not_trigger env2 _ "Go Back" (by decide)]
    simp [onText, replyOnly]
  refine ⟨h1, h2, ?_, ?_, fun s0 hl => goBack_without_lastStep env s0 hl⟩
  · rw [h1, h3]
  · rw [h1, h3]

/-- C15 exercised from the wallet-count step. -/
theorem back_to_main_go_back_witness :
    (handle sampleEnv
      (handle sampleEnv { Session.fresh with step := some .await_wallet_count }
        (.text "Back to Main")).session (.text "Go Back")).session.step =
      some .await_wallet_count :=
  (back_to_main_go_back sampleEnv sampleEnv { Session.fresh with step := some .await_wallet_count }
    .await_wallet_count rfl).2.2.1

/-! ## Token and network are set together -/

theorem startVolume_token_fields (env : Env) (s : Session) :
    (startVolume env s).session.tradeNetwork = s.tradeNetwork ∧
    (startVolume env s).session.tokenAddress = s.tokenAddress := by
  unfold startVolume replyOnly
  repeat' first
    | split
    | (dsimp only; split)
  all_goals exact ⟨rfl, rfl⟩

theorem onText_token_fields (env : Env) (s : Session) (text : String) :
    ((onText env s text).session.tradeNetwork = s.tradeNetwork ∧
      (onText env s text).session.tokenAddress = s.tokenAddress) ∨
    ((onText env s text).session.tradeNetwork.isSome = true ∧
      (onText env s text).session.tokenAddress.isSome = true) := by
  unfold onText onSlippage onBuyAmount onWalletCount onWalletNetwork onTokenAddress backToMain
    replyOnly
  repeat' first
    | split
    | (dsimp only; split)
  all_goals first
    | exact Or.inl ⟨rfl, rfl⟩
    | exact Or.inr ⟨rfl, rfl⟩

theorem onCallbackQuery_token_fields (env : Env) (s : Session) (data : String) :
    (onCallbackQuery env s data).session.tradeNetwork = s.tradeNetwork ∧
    (onCallbackQuery env s data).session.tokenAddress = s.tokenAddress := by
  unfold onCallbackQuery buyTokens dumpTokens
  repeat' first
    | split
    | (dsimp only; split)
  all_goals exact ⟨rfl, rfl⟩

theorem handle_token_fields (env : Env) (s : Session) (u : Update) :
    ((handle env s u).session.tradeNetwork = s.tradeNetwork ∧
      (handle env s u).session.tokenAddress = s.tokenAddress) ∨
    ((handle env s u).session.tradeNetwork.isSome = true ∧
      (handle env s u).session.tokenAddress.isSome = true) := by
  cases u with
  | startCommand => exact Or.inl ⟨rfl, rfl⟩
  | entertokenCommand => exact Or.inl ⟨rfl, rfl⟩
  | text t =>
    simp only [handle]
    split_ifs
    · exact Or.inl ⟨rfl, rfl⟩
    · exact Or.inl ⟨rfl, rfl⟩
    · exact Or.inl ⟨rfl, rfl⟩
    · exact Or.inl ⟨rfl, rfl⟩
    · exact Or.inl (startVolume_token_fields env s)
    · exact onText_token_fields env s t
  | callback data =>
    simp only [handle]
    split_ifs
    · exact Or.inl ⟨rfl, rfl⟩
    · exact Or.inl ⟨rfl, rfl⟩
    · exact Or.inl (onCallbackQuery_token_fields env s data)

theorem reachable_token_fields (s : Session) (h : Reachable s) :
    s.tradeNetwork.isSome = s.tokenAddress.isSome := by
  induction h with
  | fresh => rfl
  | step env u _ ih =>
    rcases handle_token_fields env _ u with ⟨h1, h2⟩ | ⟨h1, h2⟩
    · rw [h1, h2]; exact ih
    · rw [h1, h2]

/-- C16: in every session reachable from a fresh one through any sequence of
updates, `tradeNetwork` is set exactly when `tokenAddress` is set.  In
particular, in the token-address step a text for which the lookup throws, or
returns no pair, or returns a first pair in which no network is recognised,
leaves the whole session as it was, so both fields and `step` keep their values. -/
theorem token_and_network_together (env : Env) (s : Session) (t : String)
    (hreach : Reachable s) :
    (s.tradeNetwork.isSome = true ↔ s.tokenAddress.isSome = true) ∧
    (s.step = some .await_token_address → t ∉ hearsTriggers →
      ¬ (t = "Go Back" ∧ s.lastStep.isSome = true) →
      (env.fetchDex t = .threw ∨ env.fetchDex t = .pairs [] ∨
        ∃ pair rest, env.fetchDex t = .pairs (pair :: rest) ∧ (detectNetwork pair).1 = none) →
      (handle env s (.text t)).session = s ∧
      (handle env s (.text t)).session.tradeNetwork = s.tradeNetwork ∧
      (handle env s (.text t)).session.tokenAddress = s.tokenAddress ∧
      (handle env s (.text t)).session.step = s.step) := by
  refine ⟨by rw [reachable_token_fields s hreach], fun hstep ht hgo hfail => ?_⟩
  rw [handle_text_of_not_trigger env s t ht, onText_branch env s t ht hgo, hstep]
  simp only
  have hs : (onTokenAddress env s t).session = s := by
    unfold onTokenAddress
    rcases hfail with h | h | ⟨pair, rest, h, hd⟩
    · simp [h, replyOnly]
    · simp [h, replyOnly]
    · rw [h]
      simp only
      cases hdn : detectNetwork pair with
      | mk net chain =>
        rw [hdn] at hd
        simp only at hd
        subst hd
        simp [replyOnly]
  rw [hs]
  exact ⟨rfl, rfl, rfl, hstep⟩

/-- C16 exercised: in the token-address step reached from a fresh session, a
failing lookup leaves the session as it was, and after a lookup that resolves
to Solana both fields are set. -/
theorem token_and_network_together_witness :
    (handle sampleEnv (handle sampleEnv Session.fresh (.text "🔗 Enter Token Mint Address")).session
      (.text "not-a-token")).session =
      (handle sampleEnv Session.fresh (.text "🔗 Enter Token Mint Address")).session ∧
    ((handle resolvingEnv
        (handle sampleEnv Session.fresh (.text "🔗 Enter Token Mint Address")).session
        (.text "SomeMint")).session.tradeNetwork.isSome = true ↔
     (handle resolvingEnv
        (handle sampleEnv Session.fresh (.text "🔗 Enter Token Mint Address")).session
        (.text "SomeMint")).session.tokenAddress.isSome = true) ∧
    (handle resolvingEnv
        (handle sampleEnv Session.fresh (.text "🔗 Enter Token Mint Address")).session
        (.text "SomeMint")).session.tradeNetwork = some .Solana :=
  ⟨((token_and_network_together sampleEnv
      (handle sampleEnv Session.fresh (.text "🔗 Enter Token Mint Address")).session
      "not-a-token"
      (Reachable.step sampleEnv (.text "🔗 Enter Token Mint Address") Reachable.fresh)).2
    (by decide) (by decide) (by decide) (Or.inl rfl)).1,
   (token_and_network_together sampleEnv
      (handle resolvingEnv
        (handle sampleEnv Session.fresh (.text "🔗 Enter Token Mint Address")).session
        (.text "SomeMint")).session "x"
      (Reachable.step resolvingEnv (.text "SomeMint")
        (Reachable.step sampleEnv (.text "🔗 Enter Token Mint Address") Reachable.fresh))).1,
   by decide⟩

/-! ## Wallet lists -/

theorem generateWallets_length (env : Env) (net : Network) (count : Nat) :
    (generateWallets env net count).length = count := by
  simp [generateWallets]

theorem networkOfText_cases (t : String) (net : Network) (h : networkOfText t = some net) :
    t = "Solana" ∨ t = "BSC" ∨ t = "Ethereum" := by
  unfold networkOfText at h
  split_ifs at h with h1 h2 h3
  · exact Or.inl h1
  · exact Or.inr (Or.inl h2)
  · exact Or.inr (Or.inr h3)

theorem startVolume_wallet_fields (env : Env) (s : Session) :
    (startVolume env s).session.wallets = s.wallets ∧
    (startVolume env s).session.walletCount = s.walletCount ∧
    ((startVolume env s).session.step = s.step ∨
      (startVolume env s).session.step = some .await_slippage) ∧
    (startVolume env s).session.lastStep = s.lastStep := by
  unfold startVolume replyOnly
  repeat' first
    | split
    | (dsimp only; split)
  all_goals first
    | exact ⟨rfl, rfl, Or.inl rfl, rfl⟩
    | exact ⟨rfl, rfl, Or.inr rfl, rfl⟩

theorem onCallbackQuery_wallet_fields (env : Env) (s : Session) (data : String) :
    (onCallbackQuery env s data).session.wallets = s.wallets ∧
    (onCallbackQuery env s data).session.walletCount = s.walletCount ∧
    (onCallbackQuery env s data).session.step = s.step ∧
    (onCallbackQuery env s data).session.lastStep = s.lastStep := by
  unfold onCallbackQuery buyTokens dumpTokens
  repeat' first
    | split
    | (dsimp only; split)
  all_goals exact ⟨rfl, rfl, rfl, rfl⟩

theorem onText_wallets_inv (env : Env) (s : Session) (text : String)
    (h1 : ∀ net, (s.wallets net).length ≤ 20)
    (h2 : ∀ c, s.walletCount = some c → 1 ≤ c ∧ c ≤ 20)
    (h3 : (s.step = some .await_wallet_network ∨ s.lastStep = some .await_wallet_network) →
      s.walletCount.isSome = true) :
    (∀ net, ((onText env s text).session.wallets net).length ≤ 20) ∧
    (∀ c, (onText env s text).session.walletCount = some c → 1 ≤ c ∧ c ≤ 20) ∧
    (((onText env s text).session.step = some .await_wallet_network ∨
        (onText env s text).session.lastStep = some .await_wallet_network) →
      (onText env s text).session.walletCount.isSome = true) := by
  unfold onText onSlippage onBuyAmount onWalletCount onWalletNetwork onTokenAddress backToMain
    replyOnly
  repeat' first
    | split
    | (dsimp only; split)
  all_goals refine ⟨?_, ?_, ?_⟩
  all_goals first
    | exact h1
    | exact h2
    | exact h3
    | (simp_all; done)
    | (simp_all; omega)
    | (simp_all
       intro k
       split_ifs
       · rw [generateWallets_length]; omega
       · exact h1 k)

theorem handle_wallets_inv (env : Env) (s : Session) (u : Update)
    (h1 : ∀ net, (s.wallets net).length ≤ 20)
    (h2 : ∀ c, s.walletCount = some c → 1 ≤ c ∧ c ≤ 20)
    (h3 : (s.step = some .await_wallet_network ∨ s.lastStep = some .await_wallet_network) →
      s.walletCount.isSome = true) :
    (∀ net, ((handle env s u).session.wallets net).length ≤ 20) ∧
    (∀ c, (handle env s u).session.walletCount = some c → 1 ≤ c ∧ c ≤ 20) ∧
    (((handle env s u).session.step = some .await_wallet_network ∨
        (handle env s u).session.lastStep = some .await_wallet_network) →
      (handle env s u).session.walletCount.isSome = true) := by
  have hkeep : ∀ out : Outcome, out.session.wallets = s.wallets →
      out.session.walletCount = s.walletCount →
      (out.session.step = some .await_wallet_network → s.step = some .await_wallet_network) →
      (out.session.lastStep = some .await_wallet_network →
        s.step = some .await_wallet_network ∨ s.lastStep = some .await_wallet_network) →
      (∀ net, (out.session.wallets net).length ≤ 20) ∧
      (∀ c, out.session.walletCount = some c → 1 ≤ c ∧ c ≤ 20) ∧
      ((out.session.step = some .await_wallet_network ∨
          out.session.lastStep = some .await_wallet_network) →
        out.session.walletCount.isSome = true) := by
    intro out e1 e2 e3 e4
    rw [e1, e2]
    refine ⟨h1, h2, fun h => h3 ?_⟩
    rcases h with h | h
    · exact Or.inl (e3 h)
    · exact e4 h
  cases u with
  | startCommand =>
    exact hkeep (start s) rfl rfl (by simp [start]) (by simp [start])
  | entertokenCommand =>
    exact hkeep (enterToken s) rfl rfl (by simp [enterToken]) (fun h => Or.inl h)
  | text t =>
    simp only [handle]
    split_ifs
    · exact hkeep (showWallets env s) rfl rfl (fun h => h) (fun h => Or.inr h)
    · exact hkeep (backToMain s) rfl rfl (by simp [backToMain]) (fun h => Or.inl h)
    · exact hkeep (generateWallet s) rfl rfl (by simp [generateWallet]) (fun h => Or.inl h)
    · exact hkeep (enterToken s) rfl rfl (by simp [enterToken]) (fun h => Or.inl h)
    · obtain ⟨e1, e2, e3, e4⟩ := startVolume_wallet_fields env s
      refine hkeep _ e1 e2 (fun h => ?_) (fun h => Or.inr (e4 ▸ h))
      rcases e3 with e3 | e3
      · rw [← e3]; exact h
      · rw [e3] at h; exact absurd h (by decide)
    · exact onText_wallets_inv env s t h1 h2 h3
  | callback data =>
    simp only [handle]
    split_ifs
    · exact hkeep (showWalletsInline env s) rfl rfl (fun h => h) (fun h => Or.inr h)
    · exact hkeep (backToMainInline s) rfl rfl (by simp [backToMainInline, backToMain])
        (fun h => Or.inl h)
    · obtain ⟨e1, e2, e3, e4⟩ := onCallbackQuery_wallet_fields env s data
      exact hkeep _ e1 e2 (fun h => e3 ▸ h) (fun h => Or.inr (e4 ▸ h))

theorem reachable_wallets_inv (s : Session) (h : Reachable s) :
    (∀ net, (s.wallets net).length ≤ 20) ∧
    (∀ c, s.walletCount = some c → 1 ≤ c ∧ c ≤ 20) ∧
    ((s.step = some .await_wallet_network ∨ s.lastStep = some .await_wallet_network) →
      s.walletCount.isSome = true) := by
  induction h with
  | fresh => simp [Session.fresh]
  | step env u _ ih => exact handle_wallets_inv env _ u ih.1 ih.2.1 ih.2.2

/-- C17: in every session reachable from a fresh one through any sequence of
updates (Back to Main and Go Back included), every network holds between 0 and
20 wallets.  In the wallet-network step of such a session `walletCount` is set,
to a number in 1..20, and a text naming one of the three networks replaces the
wallet list of that network with exactly `walletCount` wallets taken from the
key generator, the lists of the other networks staying as they were. -/
theorem wallets_bounded_and_replaced (env : Env) (s : Session) (t : String) (net : Network)
    (hreach : Reachable s) :
    (∀ k, (s.wallets k).length ≤ 20) ∧
    (s.step = some .await_wallet_network → networkOfText t = some net →
      ∃ c, s.walletCount = some c ∧ 1 ≤ c ∧ c ≤ 20 ∧
        (handle env s (.text t)).session.wallets net = generateWallets env net c ∧
        ((handle env s (.text t)).session.wallets net).length = c ∧
        (∀ k, k ≠ net → (handle env s (.text t)).session.wallets k = s.wallets k) ∧
        (handle env s (.text t)).session.step = none) := by
  obtain ⟨h1, h2, h3⟩ := reachable_wallets_inv s hreach
  refine ⟨h1, fun hstep hnet => ?_⟩
  obtain ⟨c, hc⟩ := Option.isSome_iff_exists.mp (h3 (Or.inl hstep))
  have ht : t ∉ hearsTriggers := by
    rcases networkOfText_cases t net hnet with h | h | h <;> rw [h] <;> decide
  have hgo : ¬ (t = "Go Back" ∧ s.lastStep.isSome = true) := by
    rintro ⟨h, -⟩
    rw [h] at hnet
    have hn : networkOfText "Go Back" = none := by decide
    rw [hn] at hnet
    exact absurd hnet (by simp)
  have hout : (handle env s (.text t)).session.wallets =
      fun k => if k = net then generateWallets env net c else s.wallets k := by
    rw [handle_text_of_not_trigger env s t ht, onText_branch env s t ht hgo, hstep]
    simp only [onWalletNetwork, hnet, hc, Option.getD_some]
  have hst : (handle env s (.text t)).session.step = none := by
    rw [handle_text_of_not_trigger env s t ht, onText_branch env s t ht hgo, hstep]
    simp only [onWalletNetwork, hnet]
  refine ⟨c, hc, (h2 c hc).1, (h2 c hc).2, ?_, ?_, ?_, hst⟩
  · rw [hout]; simp
  · rw [hout]; simp [generateWallets_length]
  · intro k hk
    rw [hout]; simp [hk]

/-- C17 exercised: after asking for wallet generation and entering 5, the text
`BSC` gives five wallets on BSC and leaves Solana empty. -/
theorem wallets_bounded_and_replaced_witness :
    ∃ c, (handle sampleEnv (handle sampleEnv Session.fresh (.text "🪪 Generate Wallet")).session
        (.text "5")).session.walletCount = some c ∧ 1 ≤ c ∧ c ≤ 20 ∧
      (handle sampleEnv
        (handle sampleEnv (handle sampleEnv Session.fresh (.text "🪪 Generate Wallet")).session
          (.text "5")).session (.text "BSC")).session.wallets .BSC =
        generateWallets sampleEnv .BSC c ∧
      ((handle sampleEnv
        (handle sampleEnv (handle sampleEnv Session.fresh (.text "🪪 Generate Wallet")).session
          (.text "5")).session (.text "BSC")).session.wallets .BSC).length = c ∧
      (∀ k, k ≠ Network.BSC → (handle sampleEnv
        (handle sampleEnv (handle sampleEnv Session.fresh (.text "🪪 Generate Wallet")).session
          (.text "5")).session (.text "BSC")).session.wallets k =
        (handle sampleEnv (handle sampleEnv Session.fresh (.text "🪪 Generate Wallet")).session
          (.text "5")).session.wallets k) ∧
      (handle sampleEnv
        (handle sampleEnv (handle sampleEnv Session.fresh (.text "🪪 Generate Wallet")).session
          (.text "5")).session (.text "BSC")).session.step = none :=
  (wallets_bounded_and_replaced sampleEnv
    (handle sampleEnv (handle sampleEnv Session.fresh (.text "🪪 Generate Wallet")).session
      (.text "5")).session "BSC" .BSC
    (Reachable.step sampleEnv (.text "5")
      (Reachable.step sampleEnv (.text "🪪 Generate Wallet") Reachable.fresh))).2
    (by decide) (by decide)

/-! ## Scheduler: what the progress notifications report -/

theorem buyWallets_progress (env : Env) (s : Session) (ws : List Wallet) (i : Nat)
    (st : CycleState) : (buyWallets env s i ws st).progress = st.progress :=
  buyWallets_keeps env s (fun st' => st'.progress = st.progress) ws i
    (fun _ w _ st' _ h' => by simpa [buySubOp] using h') st rfl

theorem buyRounds_progress_list (env : Env) (s : Session) :
    ∀ (r : Nat) (st : CycleState), st.sent ≤ totalTx s →
      (buyRounds env s r st).progress = st.progress ++ (List.range r).map (fun i =>
        progressMsg
          (min (st.sent + (i + 1) * ((cycleWallets s).length * txPerWalletPerRound s)) (totalTx s))
          (totalTx s) "buy") := by
  intro r
  induction r with
  | zero => intro st _; simp [buyRounds]
  | succ r ih =>
    intro st h
    unfold buyRounds
    have h1 := buyWallets_sent env s (cycleWallets s) 0 st h
    obtain ⟨e1, -, -, -, -, e6⟩ :=
      endRound_fields s "buy" (buyWallets env s 0 (cycleWallets s) st)
    rw [ih _ (by rw [e1, h1]; omega), e6, buyWallets_progress, e1, h1, List.range_succ_eq_map,
      List.map_cons, List.map_map, List.append_assoc]
    congr 1
    simp only [List.singleton_append, Nat.zero_add, Nat.one_mul, List.cons.injEq, true_and]
    apply List.map_congr_left
    intro i _
    simp only [Function.comp_apply, Nat.succ_eq_add_one]
    congr 1
    simp only [Nat.add_mul, Nat.one_mul]
    omega

/-- C18: in a buy cycle the progress notification after round `r`, for `r`
from 1 to the number of rounds, reports `min (r * n * txPerWalletPerRound)
(n * rate)` out of `n * rate`, `n` being the number of wallets. -/
theorem buy_progress_counts (env : Env) (s : Session) (sp : Speed)
    (hs : s.selectedSpeed = some sp) (r : Nat) (h1 : 1 ≤ r) (hr : r ≤ rounds s) :
    (buyCycle env s).progress[r - 1]? =
      some (progressMsg
        (min (r * (cycleWallets s).length * txPerWalletPerRound s)
          ((cycleWallets s).length * sp.rate))
        ((cycleWallets s).length * sp.rate) "buy") := by
  have hrate : speedRate s = sp.rate := by simp [speedRate, hs]
  unfold buyCycle
  rw [buyRounds_progress_list env s (rounds s) CycleState.init (by simp [CycleState.init])]
  simp only [CycleState.init, List.nil_append, Nat.zero_add]
  rw [List.getElem?_map, List.getElem?_range (by omega)]
  simp only [Option.map_some', totalTx, hrate]
  rw [show r - 1 + 1 = r by omega, Nat.mul_assoc]

/-- C18 exercised: three wallets at speed `moderate` have 27 operations in 5
rounds, and the five notifications report 6, 12, 18, 24 and 27; the last round
sends the remaining 3. -/
theorem buy_progress_counts_witness :
    totalTx (sampleSession sampleWallets (some moderateSpeed)) = 27 ∧
    rounds (sampleSession sampleWallets (some moderateSpeed)) = 5 ∧
    (buyCycle sampleEnv (sampleSession sampleWallets (some moderateSpeed))).progress[0]? =
      some (progressMsg 6 27 "buy") ∧
    (buyCycle sampleEnv (sampleSession sampleWallets (some moderateSpeed))).progress[1]? =
      some (progressMsg 12 27 "buy") ∧
    (buyCycle sampleEnv (sampleSession sampleWallets (some moderateSpeed))).progress[2]? =
      some (progressMsg 18 27 "buy") ∧
    (buyCycle sampleEnv (sampleSession sampleWallets (some moderateSpeed))).progress[3]? =
      some (progressMsg 24 27 "buy") ∧
    (buyCycle sampleEnv (sampleSession sampleWallets (some moderateSpeed))).progress[4]? =
      some (progressMsg 27 27 "buy") ∧
    progressMsg 6 27 "buy" = "<b>6/27</b> buy transactions sent..." ∧
    progressMsg 27 27 "buy" = "<b>27/27</b> buy transactions sent..." :=
  ⟨by decide, by decide,
   buy_progress_counts sampleEnv (sampleSession sampleWallets (some moderateSpeed))
     moderateSpeed rfl 1 (by decide) (by decide),
   buy_progress_counts sampleEnv (sampleSession sampleWallets (some moderateSpeed))
     moderateSpeed rfl 2 (by decide) (by decide),
   buy_progress_counts sampleEnv (sampleSession sampleWallets (some moderateSpeed))
     moderateSpeed rfl 3 (by decide) (by decide),
   buy_progress_counts sampleEnv (sampleSession sampleWallets (some moderateSpeed))
     moderateSpeed rfl 4 (by decide) (by decide),
   buy_progress_counts sampleEnv (sampleSession sampleWallets (some moderateSpeed))
     moderateSpeed rfl 5 (by decide) (by decide),
   by decide, by decide⟩

/-! ## Scheduler: a sell cycle in which every balance check is low -/

theorem sellInner_all_low (env : Env) (s : Session) (w : Wallet) (hpos : 0 < totalTx s)
    (hlow : ∀ (i : Nat) (pub : String),
      lowBalance (env.getWalletBalance i s.tradeNetwork pub) = true) :
    ∀ (t : Nat) (st : CycleState), st.sent = 0 →
      (sellInner env s w t st).sent = 0 ∧
      (sellInner env s w t st).swapCalls = st.swapCalls ∧
      (sellInner env s w t st).log = st.log ++ List.replicate t (skipEntry w.publicKey) ∧
      (sellInner env s w t st).progress = st.progress ∧
      (sellInner env s w t st).delays = st.delays := by
  intro t
  induction t with
  | zero => intro st h; simp [sellInner, h]
  | succ t ih =>
    intro st h
    unfold sellInner
    rw [if_neg (by omega)]
    obtain ⟨e1, e2, e3, -⟩ := sellSubOp_of_low env s w st (hlow _ _)
    have e4 : (sellSubOp env s w st).progress = st.progress ∧
        (sellSubOp env s w st).delays = st.delays := by
      unfold sellSubOp
      simp [hlow]
    obtain ⟨i1, i2, i3, i4, i5⟩ := ih (sellSubOp env s w st) (by rw [e1, h])
    refine ⟨i1, by rw [i2, e2], ?_, by rw [i4, e4.1], by rw [i5, e4.2]⟩
    rw [i3, e3, List.append_assoc]
    rfl

theorem sellWallets_all_low (env : Env) (s : Session) (hpos : 0 < totalTx s)
    (hlow : ∀ (i : Nat) (pub : String),
      lowBalance (env.getWalletBalance i s.tradeNetwork pub) = true) :
    ∀ (ws : List Wallet) (st : CycleState), st.sent = 0 →
      (sellWallets env s ws st).sent = 0 ∧
      (sellWallets env s ws st).swapCalls = st.swapCalls ∧
      (sellWallets env s ws st).log = st.log ++ (ws.map (fun w =>
        List.replicate (txPerWalletPerRound s) (skipEntry w.publicKey))).flatten ∧
      (sellWallets env s ws st).progress = st.progress ∧
      (sellWallets env s ws st).delays = st.delays := by
  intro ws
  induction ws with
  | nil => intro st h; simp [sellWallets, h]
  | cons w ws ih =>
    intro st h
    unfold sellWallets
    obtain ⟨e1, e2, e3, e4, e5⟩ := sellInner_all_low env s w hpos hlow (txPerWalletPerRound s) st h
    obtain ⟨i1, i2, i3, i4, i5⟩ := ih _ e1
    refine ⟨i1, by rw [i2, e2], ?_, by rw [i4, e4], by rw [i5, e5]⟩
    rw [i3, e3]
    simp

/-- The log one round of skips appends. -/
theorem sellRounds_all_low (env : Env) (s : Session) (hpos : 0 < totalTx s)
    (hlow : ∀ (i : Nat) (pub : String),
      lowBalance (env.getWalletBalance i s.tradeNetwork pub) = true) :
    ∀ (r : Nat) (st : CycleState), st.sent = 0 →
      (sellRounds env s r st).sent = 0 ∧
      (sellRounds env s r st).swapCalls = st.swapCalls ∧
      (sellRounds env s r st).log = st.log ++ (List.replicate r
        ((cycleWallets s).map (fun w =>
          List.replicate (txPerWalletPerRound s) (skipEntry w.publicKey))).flatten).flatten ∧
      (sellRounds env s r st).progress =
        st.progress ++ List.replicate r (progressMsg 0 (totalTx s) "sell") ∧
      (sellRounds env s r st).delays = st.delays + r := by
  intro r
  induction r with
  | zero => intro st h; simp [sellRounds, h]
  | succ r ih =>
    intro st h
    unfold sellRounds
    obtain ⟨e1, e2, e3, e4, e5⟩ := sellWallets_all_low env s hpos hlow (cycleWallets s) st h
    have hend : endRound s "sell" (sellWallets env s (cycleWallets s) st) =
        { sellWallets env s (cycleWallets s) st with
          progress := st.progress ++ [progressMsg 0 (totalTx s) "sell"]
          delays := st.delays + 1 } := by
      unfold endRound
      simp only [e1, e4, e5, hpos, if_true]
    rw [hend]
    obtain ⟨i1, i2, i3, i4, i5⟩ := ih { sellWallets env s (cycleWallets s) st with
          progress := st.progress ++ [progressMsg 0 (totalTx s) "sell"]
          delays := st.delays + 1 } e1
    refine ⟨i1, by rw [i2, e2], ?_, ?_, by rw [i5]; simp only; omega⟩
    · rw [i3]
      simp only [e3, List.replicate_succ, List.flatten_cons, List.append_assoc]
    · rw [i4]
      simp only [List.replicate_succ, List.append_assoc, List.singleton_append]

theorem round_skips_length (tx : Nat) (f : Wallet → String) (ws : List Wallet) :
    ((ws.map (fun w => List.replicate tx (f w))).flatten).length = ws.length * tx := by
  induction ws with
  | nil => simp
  | cons w ws ih =>
    simp only [List.map_cons, List.flatten_cons, List.length_append, List.length_replicate, ih,
      List.length_cons, Nat.add_mul, Nat.one_mul]
    omega

theorem repeated_rounds_length (r : Nat) (l : List String) :
    (List.replicate r l).flatten.length = r * l.length := by
  induction r with
  | zero => simp
  | succ r ih =>
    simp only [List.replicate_succ, List.flatten_cons, List.length_append, ih, Nat.add_mul,
      Nat.one_mul]
    omega

/-- C19: in a sell cycle over at least one wallet in which every balance check
returns `Error` or less than 0.002, no swap call is made; every progress
notification reports 0 sent and the delay is taken after every round, the last
included; and the log ends with exactly rounds times wallets times
`txPerWalletPerRound` entries, all of them skip entries: 4n at `slow`, 10n at
`moderate`, which is more than the 9n of `totalTx`, and 12n at `fast`. -/
theorem sell_all_low_balance (env : Env) (s : Session) (sp : Speed) (hsp : sp ∈ SPEEDS)
    (hs : s.selectedSpeed = some sp) (hn : 1 ≤ (cycleWallets s).length)
    (hlow : ∀ (i : Nat) (pub : String),
      lowBalance (env.getWalletBalance i s.tradeNetwork pub) = true) :
    (sellCycle env s).swapCalls = [] ∧
    (sellCycle env s).sent = 0 ∧
    (sellCycle env s).progress = List.replicate (rounds s) (progressMsg 0 (totalTx s) "sell") ∧
    (sellCycle env s).delays = rounds s ∧
    (sellCycle env s).log.length =
      rounds s * (cycleWallets s).length * txPerWalletPerRound s ∧
    (∀ e ∈ (sellCycle env s).log, ∃ w ∈ cycleWallets s, e = skipEntry w.publicKey) ∧
    ((sp.value = "slow" ∧ (sellCycle env s).log.length = 4 * (cycleWallets s).length) ∨
     (sp.value = "moderate" ∧ (sellCycle env s).log.length = 10 * (cycleWallets s).length ∧
        totalTx s = 9 * (cycleWallets s).length ∧ totalTx s < (sellCycle env s).log.length) ∨
     (sp.value = "fast" ∧ (sellCycle env s).log.length = 12 * (cycleWallets s).length)) := by
  have hrate : speedRate s = sp.rate := by simp [speedRate, hs]
  have hfacts : (sp.value = "slow" ∧ sp.rate = 4 ∧ txPerWalletPerRound s = 1 ∧ rounds s = 4) ∨
      (sp.value = "moderate" ∧ sp.rate = 9 ∧ txPerWalletPerRound s = 2 ∧ rounds s = 5) ∨
      (sp.value = "fast" ∧ sp.rate = 12 ∧ txPerWalletPerRound s = 4 ∧ rounds s = 3) := by
    simp only [SPEEDS, List.mem_cons, List.mem_singleton, List.not_mem_nil, or_false] at hsp
    rcases hsp with rfl | rfl | rfl
    · have ht : txPerWalletPerRound s = 1 := by simp [txPerWalletPerRound, hs]
      exact Or.inl ⟨rfl, rfl, ht, by simp [rounds, hrate, ht]⟩
    · have ht : txPerWalletPerRound s = 2 := by simp [txPerWalletPerRound, hs]
      exact Or.inr (Or.inl ⟨rfl, rfl, ht, by simp [rounds, hrate, ht]⟩)
    · have ht : txPerWalletPerRound s = 4 := by simp [txPerWalletPerRound, hs]
      exact Or.inr (Or.inr ⟨rfl, rfl, ht, by simp [rounds, hrate, ht]⟩)
  have hpos : 0 < totalTx s := by
    unfold totalTx
    rw [hrate]
    rcases hfacts with ⟨-, h, -⟩ | ⟨-, h, -⟩ | ⟨-, h, -⟩ <;> rw [h] <;> omega
  obtain ⟨e1, e2, e3, e4, e5⟩ :=
    sellRounds_all_low env s hpos hlow (rounds s) CycleState.init rfl
  have hlen : (sellCycle env s).log.length =
      rounds s * (cycleWallets s).length * txPerWalletPerRound s := by
    unfold sellCycle
    rw [e3]
    simp only [CycleState.init, List.nil_append, repeated_rounds_length, round_skips_length,
      Nat.mul_assoc]
  have hmem : ∀ e ∈ (sellCycle env s).log, ∃ w ∈ cycleWallets s, e = skipEntry w.publicKey := by
    unfold sellCycle
    rw [e3]
    intro e he
    simp only [CycleState.init, List.nil_append, List.mem_flatten, List.mem_replicate,
      List.mem_map] at he
    obtain ⟨l, ⟨-, rfl⟩, he⟩ := he
    simp only [List.mem_flatten, List.mem_map] at he
    obtain ⟨l2, ⟨w, hw, rfl⟩, he⟩ := he
    exact ⟨w, hw, (List.mem_replicate.mp he).2⟩
  refine ⟨by unfold sellCycle; rw [e2]; rfl, by unfold sellCycle; exact e1,
    by unfold sellCycle; rw [e4]; rfl, by unfold sellCycle; rw [e5]; simp [CycleState.init],
    hlen, hmem, ?_⟩
  rw [hlen]
  unfold totalTx
  rw [hrate]
  rcases hfacts with ⟨hv, h, ht, hr⟩ | ⟨hv, h, ht, hr⟩ | ⟨hv, h, ht, hr⟩
  · exact Or.inl ⟨hv, by rw [hr, ht]; omega⟩
  · exact Or.inr (Or.inl ⟨hv, by rw [hr, ht]; omega, by rw [h]; omega, by rw [hr, ht, h]; omega⟩)
  · exact Or.inr (Or.inr ⟨hv, by rw [hr, ht]; omega⟩)

/-- C19 exercised: three wallets at speed `moderate`, every balance query
failing: no swap call, thirty skip entries against a total of 27. -/
theorem sell_all_low_balance_witness :
    (sellCycle failingEnv (sampleSession sampleWallets (some moderateSpeed))).swapCalls = [] ∧
    (sellCycle failingEnv (sampleSession sampleWallets (some moderateSpeed))).log.length = 30 ∧
    (sellCycle failingEnv (sampleSession sampleWallets (some moderateSpeed))).delays = 5 ∧
    totalTx (sampleSession sampleWallets (some moderateSpeed)) = 27 := by
  have h := sell_all_low_balance failingEnv (sampleSession sampleWallets (some moderateSpeed))
    moderateSpeed (by simp [SPEEDS, moderateSpeed]) rfl (by decide) (fun _ _ => rfl)
  exact ⟨h.1, h.2.2.2.2.1, h.2.2.2.1, by decide⟩

/-! ## Scheduler: how a buy cycle spreads its calls over the wallets -/

theorem buySubOp_positions (env : Env) (s : Session) (i j : Nat) (w : Wallet)
    (st : CycleState) :
    (buySubOp env s i w st).callPositions.count j =
      st.callPositions.count j + (if i = j then 1 else 0) := by
  simp only [buySubOp, List.count_append, List.count_cons, List.count_nil, Nat.zero_add,
    beq_iff_eq]

theorem buyInner_positions (env : Env) (s : Session) (i j : Nat) (w : Wallet) :
    ∀ (t : Nat) (st : CycleState), st.sent ≤ totalTx s →
      (buyInner env s i w t st).callPositions.count j =
        st.callPositions.count j + (if i = j then min t (totalTx s - st.sent) else 0) := by
  intro t
  induction t with
  | zero => intro st h; simp [buyInner]
  | succ t ih =>
    intro st h
    unfold buyInner
    split_ifs with hge heq heq
    · omega
    · rfl
    · rw [ih _ (by simp [buySubOp]; omega), buySubOp_positions, if_pos heq, if_pos heq]
      simp only [buySubOp]
      omega
    · rw [ih _ (by simp [buySubOp]; omega), buySubOp_positions, if_neg heq, if_neg heq]

theorem buyWallets_positions (env : Env) (s : Session) (j : Nat) :
    ∀ (ws : List Wallet) (i0 : Nat) (st : CycleState), st.sent ≤ totalTx s →
      (buyWallets env s i0 ws st).callPositions.count j =
        st.callPositions.count j +
          (if i0 ≤ j ∧ j < i0 + ws.length then
            min (txPerWalletPerRound s)
              (totalTx s - min (st.sent + (j - i0) * txPerWalletPerRound s) (totalTx s))
           else 0) := by
  intro ws
  induction ws with
  | nil =>
    intro i0 st _
    have hno : ¬ (i0 ≤ j ∧ j < i0 + ([] : List Wallet).length) := by
      simp only [List.length_nil]
      omega
    rw [if_neg hno]
    rfl
  | cons w ws ih =>
    intro i0 st h
    unfold buyWallets
    have hs1 := buyInner_sent env s i0 w (txPerWalletPerRound s) st h
    rw [ih (i0 + 1) _ (by rw [hs1]; exact Nat.min_le_right _ _),
      buyInner_positions env s i0 j w _ st h, hs1]
    simp only [List.length_cons]
    rcases Nat.lt_trichotomy j i0 with hlt | heq | hgt
    · rw [if_neg (by omega), if_neg (by omega), if_neg (by omega)]
    · subst heq
      rw [if_pos rfl, if_neg (by omega), if_pos (by omega)]
      simp only [Nat.sub_self, Nat.zero_mul, Nat.add_zero]
      omega
    · rw [if_neg (by omega)]
      by_cases hin : j < i0 + (ws.length + 1)
      · rw [if_pos (by omega), if_pos (by omega)]
        obtain ⟨k, rfl⟩ : ∃ k, j = i0 + 1 + k := ⟨j - (i0 + 1), by omega⟩
        have e1 : i0 + 1 + k - (i0 + 1) = k := by omega
        have e2 : i0 + 1 + k - i0 = k + 1 := by omega
        rw [e1, e2, Nat.add_mul, Nat.one_mul]
        omega
      · rw [if_neg (by omega), if_neg (by omega)]

theorem buyRounds_positions (env : Env) (s : Session) (j : Nat)
    (hj : j < (cycleWallets s).length) :
    ∀ (r : Nat) (st : CycleState), st.sent ≤ totalTx s →
      (buyRounds env s r st).callPositions.count j =
        st.callPositions.count j + ((List.range r).map (fun i =>
          min (txPerWalletPerRound s)
            (totalTx s - min (st.sent + i * ((cycleWallets s).length * txPerWalletPerRound s)
              + j * txPerWalletPerRound s) (totalTx s)))).sum := by
  intro r
  induction r with
  | zero => intro st _; simp [buyRounds]
  | succ r ih =>
    intro st h
    unfold buyRounds
    have h1 := buyWallets_sent env s (cycleWallets s) 0 st h
    have e1 : (endRound s "buy" (buyWallets env s 0 (cycleWallets s) st)).sent =
        (buyWallets env s 0 (cycleWallets s) st).sent := endRound_sent s "buy" _
    have e3 : (endRound s "buy" (buyWallets env s 0 (cycleWallets s) st)).callPositions =
        (buyWallets env s 0 (cycleWallets s) st).callPositions := by
      unfold endRound
      dsimp only
      split <;> rfl
    rw [ih _ (by rw [e1, h1]; omega), e3, buyWallets_positions env s j _ 0 st h,
      if_pos ⟨Nat.zero_le _, by omega⟩, e1, h1,
      List.range_succ_eq_map, List.map_cons, List.sum_cons, List.map_map, Nat.add_assoc]
    congr 2
    · simp
    · congr 1
      apply List.map_congr_left
      intro i _
      simp only [Function.comp_apply, Nat.succ_eq_add_one, Nat.add_mul, Nat.one_mul]
      omega

theorem buyCycle_positions (env : Env) (s : Session) (j : Nat)
    (hj : j < (cycleWallets s).length) :
    (buyCycle env s).callPositions.count j = ((List.range (rounds s)).map (fun i =>
      min (txPerWalletPerRound s)
        (totalTx s - min (i * ((cycleWallets s).length * txPerWalletPerRound s)
          + j * txPerWalletPerRound s) (totalTx s)))).sum := by
  unfold buyCycle
  rw [buyRounds_positions env s j hj (rounds s) CycleState.init (by simp [CycleState.init])]
  simp [CycleState.init]

theorem buySubOp_uses (env : Env) (s : Session) (i : Nat) (w : Wallet)
    (hw : (cycleWallets s)[i]? = some w) (st : CycleState)
    (h : st.swapCalls.map some =
      st.callPositions.map (fun j => ((cycleWallets s)[j]?).map (swapCallOf s))) :
    (buySubOp env s i w st).swapCalls.map some =
      (buySubOp env s i w st).callPositions.map
        (fun j => ((cycleWallets s)[j]?).map (swapCallOf s)) := by
  simp only [buySubOp, List.map_append, List.map_cons, List.map_nil, h, hw, Option.map_some']

theorem buyWallets_uses (env : Env) (s : Session) :
    ∀ (ws : List Wallet) (i0 : Nat) (st : CycleState),
      (∀ k, ws[k]? = (cycleWallets s)[i0 + k]?) →
      st.swapCalls.map some =
        st.callPositions.map (fun j => ((cycleWallets s)[j]?).map (swapCallOf s)) →
      (buyWallets env s i0 ws st).swapCalls.map some =
        (buyWallets env s i0 ws st).callPositions.map
          (fun j => ((cycleWallets s)[j]?).map (swapCallOf s)) := by
  intro ws
  induction ws with
  | nil => intro _ st _ h; exact h
  | cons w ws ih =>
    intro i0 st hws h
    unfold buyWallets
    have hw : (cycleWallets s)[i0]? = some w := by
      have := hws 0
      simpa using this.symm
    refine ih (i0 + 1) _ (fun k => ?_) ?_
    · have := hws (k + 1)
      rw [List.getElem?_cons_succ] at this
      rw [this]
      congr 1
      omega
    · exact buyInner_keeps env s i0 w
        (fun st' => st'.swapCalls.map some =
          st'.callPositions.map (fun j => ((cycleWallets s)[j]?).map (swapCallOf s)))
        (fun st' _ h' => buySubOp_uses env s i0 w hw st' h') _ st h

theorem buyCycle_uses (env : Env) (s : Session) :
    (buyCycle env s).swapCalls.map some =
      (buyCycle env s).callPositions.map
        (fun j => ((cycleWallets s)[j]?).map (swapCallOf s)) := by
  unfold buyCycle
  have key : ∀ (r : Nat) (st : CycleState),
      st.swapCalls.map some =
        st.callPositions.map (fun j => ((cycleWallets s)[j]?).map (swapCallOf s)) →
      (buyRounds env s r st).swapCalls.map some =
        (buyRounds env s r st).callPositions.map
          (fun j => ((cycleWallets s)[j]?).map (swapCallOf s)) := by
    intro r
    induction r with
    | zero => intro st h; exact h
    | succ r ih =>
      intro st h
      unfold buyRounds
      apply ih
      have hb := buyWallets_uses env s (cycleWallets s) 0 st (fun k => by rw [Nat.zero_add]) h
      unfold endRound
      dsimp only
      split <;> exact hb
  exact key _ _ rfl

/-- C20: in a buy cycle over at least one wallet, each call of `sendBuyTx` uses
the key of the wallet at the position `i` of `wallets[i]` recorded for it; every
position of the wallet list is used for exactly rate swap calls if and only if
the speed is `slow` or `fast` or there is a single wallet; at speed `moderate`
with two or more wallets the first position is used for 10 calls and the last
for 8. -/
theorem buy_calls_per_wallet (env : Env) (s : Session) (sp : Speed) (hsp : sp ∈ SPEEDS)
    (hs : s.selectedSpeed = some sp) (hn : 1 ≤ (cycleWallets s).length) :
    (buyCycle env s).swapCalls.map some =
      (buyCycle env s).callPositions.map
        (fun j => ((cycleWallets s)[j]?).map (swapCallOf s)) ∧
    ((∀ j, j < (cycleWallets s).length → (buyCycle env s).callPositions.count j = sp.rate) ↔
      (sp.value = "slow" ∨ sp.value = "fast" ∨ (cycleWallets s).length = 1)) ∧
    (sp.value = "moderate" → 2 ≤ (cycleWallets s).length →
      (buyCycle env s).callPositions.count 0 = 10 ∧
      (buyCycle env s).callPositions.count ((cycleWallets s).length - 1) = 8) := by
  refine ⟨buyCycle_uses env s, ?_⟩
  have hrate : speedRate s = sp.rate := by simp [speedRate, hs]
  have r4 : List.range 4 = [0, 1, 2, 3] := by decide
  have r5 : List.range 5 = [0, 1, 2, 3, 4] := by decide
  have r3 : List.range 3 = [0, 1, 2] := by decide
  simp only [SPEEDS, List.mem_cons, List.mem_singleton, List.not_mem_nil, or_false] at hsp
  rcases hsp with rfl | rfl | rfl
  · have ht : txPerWalletPerRound s = 1 := by simp [txPerWalletPerRound, hs]
    have hr : rounds s = 4 := by simp [rounds, hrate, ht]
    have hT : totalTx s = (cycleWallets s).length * 4 := by simp [totalTx, hrate]
    refine ⟨⟨fun _ => Or.inl rfl, fun _ j hj => ?_⟩, fun h => absurd h (by decide)⟩
    rw [buyCycle_positions env s j hj, hr, ht, hT, r4]
    simp only [List.map_cons, List.map_nil, List.sum_cons, List.sum_nil]
    omega
  · have ht : txPerWalletPerRound s = 2 := by simp [txPerWalletPerRound, hs]
    have hr : rounds s = 5 := by simp [rounds, hrate, ht]
    have hT : totalTx s = (cycleWallets s).length * 9 := by simp [totalTx, hrate]
    have hcount : ∀ (j : Nat), j < (cycleWallets s).length →
        (buyCycle env s).callPositions.count j =
          8 + min 2 ((cycleWallets s).length - 2 * j) := by
      intro j hj
      rw [buyCycle_positions env s j hj, hr, ht, hT, r5]
      simp only [List.map_cons, List.map_nil, List.sum_cons, List.sum_nil]
      omega
    refine ⟨⟨fun hall => ?_, fun hor j hj => ?_⟩, fun _ h2 => ?_⟩
    · have := hall 0 (by omega)
      rw [hcount 0 (by omega)] at this
      right; right
      simp only at this
      omega
    · rcases hor with h | h | h
      · exact absurd h (by decide)
      · exact absurd h (by decide)
      · rw [hcount j hj]
        simp only
        omega
    · rw [hcount 0 (by omega), hcount _ (by omega)]
      omega
  · have ht : txPerWalletPerRound s = 4 := by simp [txPerWalletPerRound, hs]
    have hr : rounds s = 3 := by simp [rounds, hrate, ht]
    have hT : totalTx s = (cycleWallets s).length * 12 := by simp [totalTx, hrate]
    refine ⟨⟨fun _ => Or.inr (Or.inl rfl), fun _ j hj => ?_⟩, fun h => absurd h (by decide)⟩
    rw [buyCycle_positions env s j hj, hr, ht, hT, r3]
    simp only [List.map_cons, List.map_nil, List.sum_cons, List.sum_nil]
    omega

/-- C20 exercised at speed `moderate`: with three wallets the first position is
used for 10 swap calls, the last for 8 and the middle one for 9; with two
wallets that hold the same key the positions are still used for 10 and 8 calls,
all 18 calls carrying that one key. -/
theorem buy_calls_per_wallet_witness :
    ((buyCycle sampleEnv (sampleSession sampleWallets (some moderateSpeed))).callPositions.count 0
        = 10 ∧
     (buyCycle sampleEnv (sampleSession sampleWallets (some moderateSpeed))).callPositions.count 2
        = 8) ∧
    (buyCycle sampleEnv (sampleSession sampleWallets (some moderateSpeed))).callPositions.count 1
        = 9 ∧
    ((buyCycle sampleEnv (sampleSession twinWallets (some moderateSpeed))).callPositions.count 0
        = 10 ∧
     (buyCycle sampleEnv (sampleSession twinWallets (some moderateSpeed))).callPositions.count 1
        = 8) ∧
    ((buyCycle sampleEnv (sampleSession twinWallets (some moderateSpeed))).swapCalls.map
        SwapCall.priv).count "PrivA" = 18 ∧
    (buyCycle sampleEnv (sampleSession sampleWallets (some moderateSpeed))).callPositions =
      [0, 0, 1, 1, 2, 2, 0, 0, 1, 1, 2, 2, 0, 0, 1, 1, 2, 2, 0, 0, 1, 1, 2, 2, 0, 0, 1] :=
  ⟨(buy_calls_per_wallet sampleEnv (sampleSession sampleWallets (some moderateSpeed))
      moderateSpeed (by simp [SPEEDS, moderateSpeed]) rfl (by decide)).2.2 rfl (by decide),
   by decide,
   (buy_calls_per_wallet sampleEnv (sampleSession twinWallets (some moderateSpeed))
      moderateSpeed (by simp [SPEEDS, moderateSpeed]) rfl (by decide)).2.2 rfl (by decide),
   by decide, by decide⟩

end VolumeBot
